import Mathlib

/-!
Verification of the FPL squad/lineup optimization engine
(`src/services/optimization_service.py`) against its specification.

The Python service is shallowly embedded: the database snapshot (players,
predictions, fixtures) is an explicit value, money is exact rationals
(`now_cost` tenths divided by 10, as in the source), and the PuLP integer
program built by `optimize_team` is modelled by its exact feasible set
(binary selection vectors = sublists of the eligible pool) together with an
exact argmax solver, which is what an exact MILP solve computes.
-/

set_option maxRecDepth 8000

set_option maxHeartbeats 4000000

/-- String constants for positions and status used by the source. -/
def posGKP : String := "GKP"

def posDEF : String := "DEF"

def posMID : String := "MID"

def posFWD : String := "FWD"

def statusAvailable : String := "a"

/-- The four FPL positions, in the iteration order used by the source dicts. -/
def allPositions : List String := [posGKP, posDEF, posMID, posFWD]

/-- A row of the `players` table (`db_models.Player`), restricted to the
columns the optimization service reads. `now_cost` is in tenths of a million,
as in the source. -/
structure DBPlayer where
  player_id : Nat
  web_name : String
  position : String
  now_cost : Nat
  team_id : Nat
  status : String
  form : ℚ
  total_points : Nat
deriving DecidableEq, Repr

/-- A row of the `fixtures` table (`db_models.Fixture`), restricted to the
columns read by `_get_gameweek_fixture_context`. -/
structure DBFixture where
  fixture_id : Nat
  gameweek : Nat
  home_team_id : Nat
  away_team_id : Nat
  home_difficulty : Option Int
  away_difficulty : Option Int
deriving DecidableEq, Repr

/-- The database snapshot visible to the optimization service:
players, player predictions (`PlayerPrediction.expected_points`, keyed by
player id) and fixtures. -/
structure DB where
  players : List DBPlayer
  predictions : List (Nat × ℚ)
  fixtures : List DBFixture
deriving DecidableEq, Repr

/-- Look up a player's prediction row (SQL join on `player_id`). -/
def lookupPred (db : DB) (pid : Nat) : Option ℚ :=
  (db.predictions.find? (fun pr => pr.1 == pid)).map (fun pr => pr.2)

/-- Executable binary max on ℚ (Python `max`). -/
def qmax (a b : ℚ) : ℚ := if a ≤ b then b else a

/-- Executable binary min on ℚ (Python `min`). -/
def qmin (a b : ℚ) : ℚ := if a ≤ b then a else b

/-- Round to the nearest integer, ties to even: Python `round` semantics. -/
def roundHalfEven (x : ℚ) : ℤ :=
  let f : ℤ := Rat.floor x
  let d : ℚ := x - f
  if d < 1/2 then f
  else if 1/2 < d then f + 1
  else if f % 2 = 0 then f else f + 1

/-- Python `round(x, 1)`. -/
def roundTo1 (x : ℚ) : ℚ := (roundHalfEven (x * 10) : ℚ) / 10

/-- Python `round(x, 2)`. -/
def roundTo2 (x : ℚ) : ℚ := (roundHalfEven (x * 100) : ℚ) / 100

/-- `_estimate_expected_points`: fallback expected points for a player with no
prediction row, from position base, form, season points and price. -/
def estimateExpectedPoints (db : DB) (pid : Nat) : ℚ :=
  match db.players.find? (fun p => p.player_id == pid) with
  | none => 2
  | some player =>
    let position_base : ℚ :=
      if player.position = posGKP then 4
      else if player.position = posDEF then 4.5
      else if player.position = posMID then 5.5
      else if player.position = posFWD then 6
      else 4
    let form_multiplier : ℚ :=
      if player.form > 7 then 1.4
      else if player.form > 5 then 1.2
      else if player.form > 3 then 1
      else 0.7
    let points_multiplier : ℚ :=
      if player.total_points > 200 then 1.5
      else if player.total_points > 150 then 1.3
      else if player.total_points > 100 then 1.1
      else if player.total_points > 50 then 0.9
      else 0.6
    let cost : ℚ := (player.now_cost : ℚ) / 10
    let cost_multiplier : ℚ :=
      if cost ≥ 12 then 1.3
      else if cost ≥ 8 then 1.1
      else if cost ≥ 5 then 1
      else 0.8
    let expected := position_base * form_multiplier * points_multiplier * cost_multiplier
    qmax 1 (qmin 15 (roundTo1 expected))

/-- The per-player record assembled by `_get_player_data_for_optimization`. -/
structure PlayerInfo where
  web_name : String
  position : String
  cost : ℚ
  team_id : Nat
  expected_points : ℚ
  status : String
deriving DecidableEq, Repr

/-- `_get_player_data_for_optimization`: available (`status == 'a'`) players
minus the excluded ids, each paired with its cost in millions and its
prediction (falling back to `_estimate_expected_points`). -/
def playerData (db : DB) (excluded : List Nat) : List (Nat × PlayerInfo) :=
  (db.players.filter
      (fun p => p.status == statusAvailable && !(excluded.contains p.player_id))).map
    (fun p =>
      (p.player_id,
        { web_name := p.web_name
          position := p.position
          cost := (p.now_cost : ℚ) / 10
          team_id := p.team_id
          expected_points :=
            match lookupPred db p.player_id with
            | some q => q
            | none => estimateExpectedPoints db p.player_id
          status := p.status }))

/-- Ids of the eligible pool (`player_ids = list(player_data.keys())`). -/
def poolIds (pool : List (Nat × PlayerInfo)) : List Nat := pool.map Prod.fst

/-- `player_positions[pid]` on the eligible pool. -/
def posOf (pool : List (Nat × PlayerInfo)) (pid : Nat) : String :=
  ((pool.find? (fun pi => pi.1 == pid)).map (fun pi => pi.2.position)).getD default

/-- `player_costs[pid]` on the eligible pool. -/
def costOf (pool : List (Nat × PlayerInfo)) (pid : Nat) : ℚ :=
  ((pool.find? (fun pi => pi.1 == pid)).map (fun pi => pi.2.cost)).getD 0

/-- `player_predictions[pid]` on the eligible pool. -/
def epOf (pool : List (Nat × PlayerInfo)) (pid : Nat) : ℚ :=
  ((pool.find? (fun pi => pi.1 == pid)).map (fun pi => pi.2.expected_points)).getD 0

/-- `player_teams[pid]` on the eligible pool. -/
def teamOf (pool : List (Nat × PlayerInfo)) (pid : Nat) : Nat :=
  ((pool.find? (fun pi => pi.1 == pid)).map (fun pi => pi.2.team_id)).getD 0

/-- The (fixed) full-squad quota used by `_get_formation_constraints`:
`FORMATION_CONSTRAINTS = {GKP: 2, DEF: 5, MID: 5, FWD: 3}` from `config.py`. -/
def formationConstraints : List (String × Nat) :=
  [(posGKP, 2), (posDEF, 5), (posMID, 5), (posFWD, 3)]

/-- The constraint set of the integer program built by `optimize_team`
(for a binary selection given as the list `S` of chosen pool ids):
(a) budget, (b) position quota equalities, (c) per-club cap,
(d) preferred ids present in the pool forced in, and (e) the transfer-limit
constraint, which the source only adds when `existing_team` is non-empty and
`transfer_limit > 0`, and whose `transfers_out` variables are forced to
`1 - x` only for incumbents present in the pool (eliminating them yields the
count below). -/
def feasibleB (pool : List (Nat × PlayerInfo)) (budget : ℚ) (maxPerTeam : Nat)
    (preferred : List Nat) (existing : Option (List Nat)) (limit : Int)
    (S : List Nat) : Bool :=
  (formationConstraints.all
      (fun pc => S.countP (fun pid => posOf pool pid == pc.1) == pc.2))
  && decide ((S.map (costOf pool)).sum ≤ budget)
  && ((pool.map (fun pi => pi.2.team_id)).all
        (fun t => S.countP (fun pid => teamOf pool pid == t) ≤ maxPerTeam))
  && (preferred.all
        (fun pid => !((poolIds pool).contains pid) || S.contains pid))
  && (match existing with
      | none => true
      | some l =>
        if l.isEmpty || limit ≤ 0 then true
        else
          decide (((l.countP
              (fun pid => (poolIds pool).contains pid && !(S.contains pid))) : Int)
            ≤ limit))

/-- The objective of the integer program: total expected points of `S`. -/
def objVal (pool : List (Nat × PlayerInfo)) (S : List Nat) : ℚ :=
  (S.map (epOf pool)).sum

/-- Merge the best results of two search branches, preferring the first on
ties (a fixed deterministic tie-break, as an exact deterministic solver has). -/
def mergeBest : Option (ℚ × List Nat) → Option (ℚ × List Nat) → Option (ℚ × List Nat)
  | none, b => b
  | some a, none => some a
  | some a, some b => if a.1 < b.1 then some b else some a

/-- Exhaustive search over all binary selections: every subset of `remaining`
appended to `chosen` is considered, the feasible ones are compared by cached
objective value, `none` means no feasible completion exists. The `prune`
test may cut a branch only when (provably) no completion of it is feasible,
so the search is an exact model of the MILP solve. -/
def searchBest (prune feas : List Nat → Bool) (obj : List Nat → ℚ) (chosen : List Nat) :
    List Nat → Option (ℚ × List Nat)
  | [] => if feas chosen then some (obj chosen, chosen) else none
  | x :: rest =>
    if prune (chosen ++ x :: rest) then none
    else
      mergeBest (searchBest prune feas obj (chosen ++ [x]) rest)
        (searchBest prune feas obj chosen rest)

/-- Branch pruning for the squad search: a partial selection `chosen` with
future candidates `rem` (passed appended) can be discarded when some position
quota is already exceeded by the committed prefix or cannot be reached even by
taking every remaining candidate. This never cuts a feasible selection, since
the quota constraints are equalities (`searchBest_prune_ok`). -/
def quotaPrune (pool : List (Nat × PlayerInfo)) (chosenRem : List Nat) : Bool :=
  !(formationConstraints.all
      (fun pc => pc.2 ≤ chosenRem.countP (fun pid => posOf pool pid == pc.1)))

/-- Exact solve of the integer program: among all binary selections over the
pool (subsequences of the pool id list) satisfying every constraint, return
one of maximum objective; `none` means the program is infeasible. -/
def solveILP (pool : List (Nat × PlayerInfo)) (budget : ℚ) (maxPerTeam : Nat)
    (preferred : List Nat) (existing : Option (List Nat)) (limit : Int) :
    Option (List Nat) :=
  (searchBest (quotaPrune pool)
      (feasibleB pool budget maxPerTeam preferred existing limit)
      (objVal pool) [] (poolIds pool)).map (fun r => r.2)

theorem mergeBest_some_left (b2 : Option (ℚ × List Nat)) (a : ℚ × List Nat) :
    ∃ c, mergeBest (some a) b2 = some c ∧ a.1 ≤ c.1 := by
  cases b2 with
  | none => exact ⟨a, rfl, le_refl _⟩
  | some b =>
    by_cases h : a.1 < b.1
    · exact ⟨b, by simp [mergeBest, h], le_of_lt h⟩
    · exact ⟨a, by simp [mergeBest, h], le_refl _⟩

theorem mergeBest_some_right (b1 : Option (ℚ × List Nat)) (b : ℚ × List Nat) :
    ∃ c, mergeBest b1 (some b) = some c ∧ b.1 ≤ c.1 := by
  cases b1 with
  | none => exact ⟨b, rfl, le_refl _⟩
  | some a =>
    by_cases h : a.1 < b.1
    · exact ⟨b, by simp [mergeBest, h], le_refl _⟩
    · exact ⟨a, by simp [mergeBest, h], not_lt.mp h⟩

theorem mergeBest_cases (b1 b2 : Option (ℚ × List Nat)) (c : ℚ × List Nat)
    (h : mergeBest b1 b2 = some c) : b1 = some c ∨ b2 = some c := by
  cases b1 with
  | none => exact Or.inr h
  | some a =>
    cases b2 with
    | none => exact Or.inl h
    | some b =>
      simp only [mergeBest] at h
      by_cases hab : a.1 < b.1
      · rw [if_pos hab] at h; exact Or.inr h
      · rw [if_neg hab] at h; exact Or.inl h

/-- Soundness of the search: any returned selection extends `chosen` by a
subsequence of `remaining`, is feasible, and carries its own objective. -/
theorem searchBest_sound (prune feas : List Nat → Bool) (obj : List Nat → ℚ) :
    ∀ (rem chosen : List Nat) (c : ℚ × List Nat),
      searchBest prune feas obj chosen rem = some c →
      (∃ T, T.Sublist rem ∧ c.2 = chosen ++ T) ∧ feas c.2 = true ∧ c.1 = obj c.2 := by
  intro rem
  induction rem with
  | nil =>
    intro chosen c h
    simp only [searchBest] at h
    by_cases hf : feas chosen = true
    · rw [if_pos hf] at h
      cases h
      exact ⟨⟨[], List.Sublist.refl _, by simp⟩, by simpa using hf, rfl⟩
    · rw [if_neg hf] at h; cases h
  | cons x rest ih =>
    intro chosen c h
    simp only [searchBest] at h
    by_cases hp : prune (chosen ++ x :: rest) = true
    · rw [if_pos hp] at h; cases h
    · rw [if_neg hp] at h
      rcases mergeBest_cases _ _ _ h with h1 | h2
      · obtain ⟨⟨T, hT, hc⟩, hfeas, hobj⟩ := ih (chosen ++ [x]) c h1
        refine ⟨⟨x :: T, List.Sublist.cons₂ x hT, ?_⟩, hfeas, hobj⟩
        simpa [List.append_assoc] using hc
      · obtain ⟨⟨T, hT, hc⟩, hfeas, hobj⟩ := ih chosen c h2
        exact ⟨⟨T, List.Sublist.cons x hT, hc⟩, hfeas, hobj⟩

/-- Completeness and optimality of the search, given that `prune` only cuts
branches without feasible completions: every feasible completion is dominated
by the returned selection. -/
theorem searchBest_complete (prune feas : List Nat → Bool) (obj : List Nat → ℚ)
    (hprune : ∀ l, prune l = true → ∀ T, T.Sublist l → feas T = false) :
    ∀ (rem chosen T : List Nat), T.Sublist rem → feas (chosen ++ T) = true →
      ∃ c, searchBest prune feas obj chosen rem = some c ∧ obj (chosen ++ T) ≤ c.1 := by
  intro rem
  induction rem with
  | nil =>
    intro chosen T hT hfeas
    have : T = [] := List.sublist_nil.mp hT
    subst this
    refine ⟨(obj chosen, chosen), ?_, by simp⟩
    simp only [searchBest]
    rw [if_pos (by simpa using hfeas)]
  | cons x rest ih =>
    intro chosen T hT hfeas
    by_cases hp : prune (chosen ++ x :: rest) = true
    · exfalso
      have hsub : (chosen ++ T).Sublist (chosen ++ x :: rest) :=
        List.Sublist.append_left hT chosen
      have := hprune _ hp _ hsub
      rw [hfeas] at this
      cases this
    · cases hT with
      | cons _ hT2 =>
        obtain ⟨c, hsearch, hle⟩ := ih chosen T hT2 hfeas
        obtain ⟨d, hmerge, hled⟩ :=
          mergeBest_some_right (searchBest prune feas obj (chosen ++ [x]) rest) c
        refine ⟨d, ?_, le_trans hle hled⟩
        simp only [searchBest, if_neg hp, hsearch]
        exact hmerge
      | cons₂ _ hT2 =>
        rename_i T'
        have hfeas2 : feas ((chosen ++ [x]) ++ T') = true := by
          simpa [List.append_assoc] using hfeas
        obtain ⟨c, hsearch, hle⟩ := ih (chosen ++ [x]) T' hT2 hfeas2
        obtain ⟨d, hmerge, hled⟩ :=
          mergeBest_some_left (searchBest prune feas obj chosen rest) c
        refine ⟨d, ?_, ?_⟩
        · simp only [searchBest, if_neg hp, hsearch]
          exact hmerge
        · refine le_trans ?_ (le_trans hle hled)
          simp [List.append_assoc]

/-- `quotaPrune` only cuts selections that can no longer meet some position
quota equality, so it never cuts a feasible selection. -/
theorem quotaPrune_ok (pool : List (Nat × PlayerInfo)) (budget : ℚ)
    (maxPerTeam : Nat) (preferred : List Nat) (existing : Option (List Nat))
    (limit : Int) :
    ∀ l, quotaPrune pool l = true → ∀ T, T.Sublist l →
      feasibleB pool budget maxPerTeam preferred existing limit T = false := by
  intro l hl T hT
  rw [quotaPrune, Bool.not_eq_true'] at hl
  obtain ⟨pc, hpcmem, hpc⟩ := List.all_eq_false.mp hl
  have hlt : l.countP (fun pid => posOf pool pid == pc.1) < pc.2 := by
    simp only [decide_eq_true_eq] at hpc
    omega
  have hTle : T.countP (fun pid => posOf pool pid == pc.1)
      ≤ l.countP (fun pid => posOf pool pid == pc.1) :=
    List.Sublist.countP_le _ hT
  have hne : (T.countP (fun pid => posOf pool pid == pc.1) == pc.2) = false := by
    have : T.countP (fun pid => posOf pool pid == pc.1) ≠ pc.2 := by omega
    simpa using this
  have hA : (formationConstraints.all
      (fun x => T.countP (fun pid => posOf pool pid == x.1) == x.2)) = false :=
    List.all_eq_false.mpr ⟨pc, hpcmem, by simp [hne]⟩
  simp only [feasibleB, hA, Bool.false_and]


theorem solveILP_some {pool : List (Nat × PlayerInfo)} {budget : ℚ} {maxPerTeam : Nat}
    {preferred : List Nat} {existing : Option (List Nat)} {limit : Int} {S : List Nat}
    (h : solveILP pool budget maxPerTeam preferred existing limit = some S) :
    (S.Sublist (poolIds pool)
      ∧ feasibleB pool budget maxPerTeam preferred existing limit S = true)
    ∧ ∀ T, T.Sublist (poolIds pool) →
        feasibleB pool budget maxPerTeam preferred existing limit T = true →
        objVal pool T ≤ objVal pool S := by
  simp only [solveILP, Option.map_eq_some'] at h
  obtain ⟨c, hc, hS⟩ := h
  obtain ⟨⟨T, hT, hc2⟩, hfeas, hobj⟩ := searchBest_sound _ _ _ _ _ _ hc
  subst hS
  simp only [List.nil_append] at hc2
  refine ⟨⟨hc2 ▸ hT, hfeas⟩, ?_⟩
  intro U hU hUfeas
  obtain ⟨d, hd, hle⟩ :=
    searchBest_complete (quotaPrune pool)
      (feasibleB pool budget maxPerTeam preferred existing limit) (objVal pool)
      (quotaPrune_ok pool budget maxPerTeam preferred existing limit)
      (poolIds pool) [] U hU (by simpa using hUfeas)
  rw [hc] at hd
  cases hd
  simpa [hobj, hc2] using hle

theorem solveILP_none {pool : List (Nat × PlayerInfo)} {budget : ℚ} {maxPerTeam : Nat}
    {preferred : List Nat} {existing : Option (List Nat)} {limit : Int}
    (h : solveILP pool budget maxPerTeam preferred existing limit = none) :
    ∀ T, T.Sublist (poolIds pool) →
      feasibleB pool budget maxPerTeam preferred existing limit T = false := by
  intro T hTsub
  by_contra hfeas
  have hfeas2 : feasibleB pool budget maxPerTeam preferred existing limit ([] ++ T) = true := by
    simpa using Bool.not_eq_false _ ▸ (by simpa using hfeas : _)
  obtain ⟨c, hc, _⟩ :=
    searchBest_complete (quotaPrune pool)
      (feasibleB pool budget maxPerTeam preferred existing limit) (objVal pool)
      (quotaPrune_ok pool budget maxPerTeam preferred existing limit)
      (poolIds pool) [] T hTsub hfeas2
  simp only [solveILP, hc] at h
  cases h

/-- The ordering used by Python `sort(key=key, reverse=True)`: `a` precedes
`b` when `key b ≤ key a`. Insertion sort with this relation is stable and
descending, matching CPython's stable sort. -/
def keyDescRel (key : α → ℚ) : α → α → Prop := fun a b => key b ≤ key a

instance (key : α → ℚ) : DecidableRel (keyDescRel key) :=
  fun a b => inferInstanceAs (Decidable (key b ≤ key a))

instance (key : α → ℚ) : IsTotal α (keyDescRel key) :=
  ⟨fun a b => le_total (key b) (key a)⟩

instance (key : α → ℚ) : IsTrans α (keyDescRel key) :=
  ⟨fun _ _ _ h h2 => le_trans h2 h⟩

/-- Stable descending sort by a rational key (Python `sorted(..., reverse=True)`). -/
def sortDesc (key : α → ℚ) (l : List α) : List α :=
  l.insertionSort (keyDescRel key)

theorem sortDesc_perm (key : α → ℚ) (l : List α) : List.Perm (sortDesc key l) l :=
  List.perm_insertionSort _ l

theorem sortDesc_sorted (key : α → ℚ) (l : List α) :
    (sortDesc key l).Pairwise (keyDescRel key) :=
  List.sorted_insertionSort _ l

inductive OptError where
  /-- `ValueError("No player data available for optimization")` -/
  | noData : OptError
  /-- `ValueError("No feasible solution found with given constraints")` -/
  | infeasible : OptError
  /-- `ValueError(f"Invalid team size: ...")` -/
  | invalidTeamSize : OptError
  /-- `ValueError(f"Not enough {position} players in squad ...")` -/
  | notEnoughPosition (pos : String) : OptError
  /-- `KeyError` from `players_by_position[position]` on an unknown position -/
  | keyError : OptError
  /-- `IndexError` from `captain_candidates[1]` on a short starting XI -/
  | indexError : OptError
deriving DecidableEq, Repr

/-- Formation parsing inside `_select_starting_xi`: a string `"d-m-f"` gives
`{GKP: 1, DEF: d, MID: m, FWD: f}`; an absent or unparseable formation falls
back to the 3-4-3 default. -/
def parseFormationNeeds (formation : Option String) : List (String × Nat) :=
  match formation with
  | none => [(posGKP, 1), (posDEF, 3), (posMID, 4), (posFWD, 3)]
  | some f =>
    match (f.splitOn (String.singleton (Char.ofNat 45))) with
    | [a, b, c] =>
      match a.toNat?, b.toNat?, c.toNat? with
      | some d, some m, some w => [(posGKP, 1), (posDEF, d), (posMID, m), (posFWD, w)]
      | _, _, _ => [(posGKP, 1), (posDEF, 3), (posMID, 4), (posFWD, 3)]
    | _ => [(posGKP, 1), (posDEF, 3), (posMID, 4), (posFWD, 3)]

/-- The effective score used to sort each position group in
`_select_starting_xi`: prediction plus a 100.0 bonus for preferred players. -/
def starterSortKey (preds : Nat → ℚ) (preferred : Option (List Nat)) (pid : Nat) : ℚ :=
  preds pid + (if (preferred.getD []).contains pid then 100 else 0)

/-- The per-position selection loop of `_select_starting_xi`: for each
`(position, needed_count)` in formation order, sort that position group
descending by effective score and take the top `needed_count`, failing if the
group is too small. -/
def pickPositions (sortKey : Nat → ℚ) (positions : Nat → String) (squad : List Nat) :
    List (String × Nat) → Except OptError (List Nat)
  | [] => .ok []
  | (pos, need) :: rest =>
    let avail := sortDesc sortKey (squad.filter (fun pid => positions pid == pos))
    if avail.length < need then .error (.notEnoughPosition pos)
    else
      match pickPositions sortKey positions squad rest with
      | .error e => .error e
      | .ok tail => .ok (avail.take need ++ tail)

/-- `_select_starting_xi`: group the squad by position (a position outside the
four raises `KeyError` in the source), sort each group by prediction with the
preferred-player bonus, and take the formation's count per position. -/
def selectStartingXI (squad : List Nat) (formation : Option String)
    (preds : Nat → ℚ) (positions : Nat → String)
    (preferred : Option (List Nat)) : Except OptError (List Nat) :=
  if squad.all (fun pid => allPositions.contains (positions pid)) then
    pickPositions (starterSortKey preds preferred) positions squad
      (parseFormationNeeds formation)
  else .error .keyError

/-- The result dict assembled by `optimize_team` (fields the claims mention;
`objective_value` is the unrounded LP objective). -/
structure OptResult where
  players : List Nat
  starting_xi : List Nat
  bench : List Nat
  captain_id : Nat
  vice_captain_id : Nat
  total_cost : ℚ
  expected_points : ℚ
  squad_expected_points : ℚ
  objective_value : ℚ
  budget_remaining : ℚ
  transfers_in : Option (List Nat)
  transfers_out : Option (List Nat)
deriving DecidableEq, Repr

/-- Build the `optimize_team` result dict from a solved squad `S` and its
starting XI with captain and vice. -/
def mkOptResult (pool : List (Nat × PlayerInfo)) (budget : ℚ)
    (existing : Option (List Nat)) (S xi : List Nat) (c v : Nat) : OptResult :=
  let total_cost := (S.map (costOf pool)).sum
  { players := S
    starting_xi := xi
    bench := S.filter (fun pid => !(xi.contains pid))
    captain_id := c
    vice_captain_id := v
    total_cost := roundTo1 total_cost
    expected_points := roundTo2 ((xi.map (epOf pool)).sum)
    squad_expected_points := roundTo2 ((S.map (epOf pool)).sum)
    objective_value := objVal pool S
    budget_remaining := roundTo1 (budget - total_cost)
    transfers_in :=
      match existing with
      | none => none
      | some l => if l.isEmpty then none else some (S.filter (fun pid => !(l.contains pid)))
    transfers_out :=
      match existing with
      | none => none
      | some l => if l.isEmpty then none else some (l.filter (fun pid => !(S.contains pid))) }

/-- `optimize_team`: build the eligible pool, solve the integer program
exactly, check the squad size, pick the starting XI and the captain pair.
Typed errors replace the raised `ValueError`s of the source. -/
def optimizeTeam (db : DB) (budget : ℚ) (formation : Option String)
    (preferred : Option (List Nat)) (excluded : Option (List Nat))
    (maxPerTeam : Nat) (existing : Option (List Nat)) (limit : Int) :
    Except OptError OptResult :=
  let pool := playerData db (excluded.getD [])
  if pool.isEmpty then .error .noData
  else
    match solveILP pool budget maxPerTeam (preferred.getD []) existing limit with
    | none => .error .infeasible
    | some S =>
      if S.length = 15 then
        match selectStartingXI S formation (epOf pool) (posOf pool) preferred with
        | .error e => .error e
        | .ok xi =>
          match sortDesc (epOf pool) xi with
          | c :: v :: _ =>
            .ok (mkOptResult pool budget existing S xi c v)
          | _ => .error .indexError
      else .error .invalidTeamSize

/-- A value stored in a fixture-context entry (Python dict values are ints or
booleans here). -/
inductive FVal where
  | i (n : Int) : FVal
  | b (v : Bool) : FVal
deriving DecidableEq, Repr

/-- A fixture-context entry: the string-keyed dict built by
`_get_gameweek_fixture_context` for one player. -/
def FEntry : Type := List (String × FVal)

instance : DecidableEq FEntry := inferInstanceAs (DecidableEq (List (String × FVal)))

/-- Python `entry.get(key, default)` for an int-valued read; a stored boolean
is coerced as Python would (`True == 1`, `False == 0`). -/
def entryGetI (e : FEntry) (k : String) (dflt : Int) : Int :=
  match e.find? (fun p => p.1 == k) with
  | none => dflt
  | some (_, FVal.i n) => n
  | some (_, FVal.b v) => if v then 1 else 0

/-- Python `entry.get(key, default)` for a bool-valued read (an int is truthy
iff nonzero). -/
def entryGetB (e : FEntry) (k : String) (dflt : Bool) : Bool :=
  match e.find? (fun p => p.1 == k) with
  | none => dflt
  | some (_, FVal.b v) => v
  | some (_, FVal.i n) => !(n == 0)

def keyFixtureId : String := "fixture_id"

def keyIsHome : String := "is_home"

def keyFixtureDifficulty : String := "fixture_difficulty"

def keyOpponentTeamId : String := "opponent_team_id"

/-- The entry written per player by `_get_gameweek_fixture_context`. -/
def mkFixtureEntry (fid : Nat) (isHome : Bool) (difficulty : Int) (opp : Nat) : FEntry :=
  [(keyFixtureId, FVal.i fid), (keyIsHome, FVal.b isHome),
   (keyFixtureDifficulty, FVal.i difficulty), (keyOpponentTeamId, FVal.i opp)]

/-- Python `difficulty or 3`: `None` (and falsy `0`) become 3. -/
def difficultyOr3 (d : Option Int) : Int :=
  match d with
  | none => 3
  | some v => if v = 0 then 3 else v

/-- A player-id-keyed context dict; later insertions shadow earlier ones, so
lookup takes the first match of the cons-ordered list. -/
def FixtureCtx : Type := List (Nat × FEntry)

instance : DecidableEq FixtureCtx := inferInstanceAs (DecidableEq (List (Nat × FEntry)))

/-- `ctx[player_id]` lookup (`player_id in fixture_context` + access). -/
def ctxFind (ctx : FixtureCtx) (pid : Nat) : Option FEntry :=
  (ctx.find? (fun p => p.1 == pid)).map (fun p => p.2)

/-- `_get_gameweek_fixture_context`: for every fixture of the gameweek, write
an entry for each player of the home team and each player of the away team
(later fixtures overwrite earlier entries, modelled by cons-shadowing). -/
def gameweekFixtureContext (db : DB) (gw : Nat) : FixtureCtx :=
  (db.fixtures.filter (fun fx => fx.gameweek == gw)).foldl
    (fun ctx fx =>
      let withHome :=
        (db.players.filter (fun p => p.team_id == fx.home_team_id)).foldl
          (fun c p =>
            (p.player_id,
              mkFixtureEntry fx.fixture_id true (difficultyOr3 fx.home_difficulty)
                fx.away_team_id) :: c)
          ctx
      (db.players.filter (fun p => p.team_id == fx.away_team_id)).foldl
        (fun c p =>
          (p.player_id,
            mkFixtureEntry fx.fixture_id false (difficultyOr3 fx.away_difficulty)
              fx.home_team_id) :: c)
        withHome)
    []

/-- The home/difficulty adjustment applied to a base score by both
`suggest_captain` and `_get_multi_gameweek_player_data`: multiply by 1.05 at
home, then by `1 + (3 - difficulty) * 0.1`. -/
def adjustEntry (base : ℚ) (e : FEntry) : ℚ :=
  let b1 := if entryGetB e keyIsHome true then base * 1.05 else base
  let d : Int := entryGetI e keyFixtureDifficulty 3
  b1 * (1 + (3 - (d : ℚ)) * 0.1)

/-- The fixture-context adjustment in `suggest_captain`: applied only when a
context dict is supplied and has an entry for the player. -/
def adjustCtx (fc : Option FixtureCtx) (pid : Nat) (base : ℚ) : ℚ :=
  match fc with
  | none => base
  | some ctx =>
    match ctxFind ctx pid with
    | none => base
    | some e => adjustEntry base e

/-- The scored-player list built by `suggest_captain`'s query loop: players of
the team list that have a prediction row (inner join), each with its
fixture-adjusted expected points (`row.expected_points or 0`). -/
def captainScored (db : DB) (team : List Nat) (fc : Option FixtureCtx) :
    List (Nat × ℚ) :=
  (db.players.filter (fun p => team.contains p.player_id)).filterMap
    (fun p =>
      (lookupPred db p.player_id).map
        (fun q => (p.player_id, adjustCtx fc p.player_id q)))

/-- The result dict of `suggest_captain` (fields the claims mention). -/
structure CaptainResult where
  captain_id : Nat
  vice_captain_id : Nat
  captain_expected_points : ℚ
  vice_captain_expected_points : ℚ
deriving DecidableEq, Repr

/-- `suggest_captain`: rank the scored players by doubled adjusted points
(descending, stable) and return the top two (vice = captain when only one
player is scored). Any internal failure — in particular no scored players —
is caught and becomes `none`, the empty dict. -/
def suggestCaptain (db : DB) (team : List Nat) (fc : Option FixtureCtx) :
    Option CaptainResult :=
  match sortDesc (fun x => x.2 * 2) (captainScored db team fc) with
  | [] => none
  | c :: rest =>
    let v := rest.headD c
    some
      { captain_id := c.1
        vice_captain_id := v.1
        captain_expected_points := roundTo2 (c.2 * 2)
        vice_captain_expected_points := roundTo2 v.2 }

/-- `optimize_for_gameweek`: run `optimize_team` (with the transfer arguments
when an existing team is supplied), then let `suggest_captain` — fed the FULL
15-player squad together with the gameweek fixture context — overwrite the
captain and vice-captain via `result.update(captain_suggestion)`. An empty
captain suggestion leaves the result unchanged. -/
def optimizeForGameweek (db : DB) (gameweek : Nat) (existing : Option (List Nat))
    (freeTransfers : Int) (budget : ℚ) : Except OptError OptResult :=
  let fc := gameweekFixtureContext db gameweek
  let base :=
    match existing with
    | some l =>
      if l.isEmpty then optimizeTeam db budget none none none 3 none 1
      else optimizeTeam db budget none none none 3 (some l) freeTransfers
    | none => optimizeTeam db budget none none none 3 none 1
  match base with
  | .error e => .error e
  | .ok r =>
    if r.players.isEmpty then .ok r
    else
      match suggestCaptain db r.players (some fc) with
      | none => .ok r
      | some c =>
        .ok { r with captain_id := c.captain_id, vice_captain_id := c.vice_captain_id }

/-- One iteration of the per-player enhancement loop of
`_get_multi_gameweek_player_data`: apply the home/difficulty adjustment when
the player has a fixture, weight the first (current) gameweek by 1.5 and a
later gameweek `g` by `max(0.5, 1 - (g - first) * 0.1)`, and track the
current-gameweek score separately (0 when the first gameweek has no
fixture). -/
def mgStep (first : Option Nat) (basePoints : ℚ) (pid : Nat)
    (acc : ℚ × ℚ) (gwctx : Nat × FixtureCtx) : ℚ × ℚ :=
  match ctxFind gwctx.2 pid with
  | some e =>
    let gs := adjustEntry basePoints e
    if first = some gwctx.1 then (gs, acc.2 + gs * 1.5)
    else
      let firstGw : ℚ := ((first.getD 0 : Nat) : ℚ)
      (acc.1, acc.2 + gs * qmax 0.5 (1 - ((gwctx.1 : ℚ) - firstGw) * 0.1))
  | none => if first = some gwctx.1 then (0, acc.2) else acc

/-- The per-player enhancement loop of `_get_multi_gameweek_player_data`:
fold over the gameweek contexts (in insertion order, first = current
gameweek), accumulating `(current_gameweek_score, multi_gameweek_score)`
starting from `(base_points, 0)`. -/
def multiGwScores (ctxs : List (Nat × FixtureCtx)) (basePoints : ℚ) (pid : Nat) :
    ℚ × ℚ :=
  ctxs.foldl (mgStep (ctxs.head?.map Prod.fst) basePoints pid) (basePoints, 0)

/-- `_get_multi_gameweek_player_data`: the base pool enhanced with the
current-gameweek score and the multi-gameweek objective coefficient. -/
def multiGameweekPlayerData (db : DB) (ctxs : List (Nat × FixtureCtx))
    (excluded : List Nat) : List (Nat × PlayerInfo × ℚ × ℚ) :=
  (playerData db excluded).map
    (fun pi => (pi.1, pi.2, multiGwScores ctxs pi.2.expected_points pi.1))

/-- Modelled on the spec wording of §4.5: weight 1.5 for the first (current)
gameweek and `max(0.5, 1 − 0.1·(g − first))` for later ones. -/
def specHorizonWeight (first g : Nat) : ℚ :=
  if g = first then 1.5 else qmax 0.5 (1 - ((g : ℚ) - (first : ℚ)) * 0.1)

/-- Modelled on the spec wording of §4.5: the §4.3 home/difficulty multiplier
for a gameweek with a fixture, and exactly 0 for a gameweek without one. -/
def specFixtureAdjust (ctx : FixtureCtx) (pid : Nat) (base : ℚ) : ℚ :=
  match ctxFind ctx pid with
  | some e => adjustEntry base e
  | none => 0

/-- Modelled on the spec wording of §4.5:
`horizon_value = Σ_g weight(g)·fixture_adjust(player, g)`. -/
def specHorizonValue (ctxs : List (Nat × FixtureCtx)) (basePoints : ℚ) (pid : Nat) : ℚ :=
  (ctxs.map
      (fun gwctx =>
        specHorizonWeight ((ctxs.head?.map Prod.fst).getD 0) gwctx.1
          * specFixtureAdjust gwctx.2 pid basePoints)).sum

/-- The per-incumbent record assembled by `suggest_free_transfers` and read by
`_identify_weak_players`. -/
structure WeakPlayerInfo where
  id : Nat
  name : String
  position : String
  team_id : Nat
  cost : ℚ
  form : ℚ
  total_points : Nat
  expected_points : ℚ
deriving DecidableEq, Repr

/-- The key `_identify_weak_players` reads from a fixture-context entry. Note
it differs from `keyFixtureDifficulty`, the key the context builder writes. -/
def keyDifficulty : String := "difficulty"

/-- `players_data[player_id]` with a harmless default (the source would raise
`KeyError`; the claims only use ids present in the data). -/
def lookupWeakInfo (data : List (Nat × WeakPlayerInfo)) (pid : Nat) : WeakPlayerInfo :=
  ((data.find? (fun d => d.1 == pid)).map (fun d => d.2)).getD
    { id := 0, name := String.mk [], position := String.mk [], team_id := 0, cost := 0,
      form := 0, total_points := 0, expected_points := 0 }

/-- The weakness score of `_identify_weak_players`: +2 for form below 3 (+1
below 4), +1 when `fixture_context.get(team_id, {}).get('difficulty', 3) > 3`
(exactly as the source reads it), +1 for expected points below 4, and +1 for
a value-per-cost ratio below 0.5. -/
def weaknessScore (player : WeakPlayerInfo) (fc : FixtureCtx) : Nat :=
  let s1 : Nat := if player.form < 3 then 2 else if player.form < 4 then 1 else 0
  let team_fixture : FEntry := (ctxFind fc player.team_id).getD []
  let s2 : Nat := if entryGetI team_fixture keyDifficulty 3 > 3 then 1 else 0
  let s3 : Nat := if player.expected_points < 4 then 1 else 0
  let s4 : Nat :=
    if player.cost > 0 ∧ player.expected_points / player.cost < 0.5 then 1 else 0
  s1 + s2 + s3 + s4

/-- `_identify_weak_players`: rank the position's incumbents weakest-first by
weakness score (stable descending sort over the id list). -/
def identifyWeakPlayers (ids : List Nat) (data : List (Nat × WeakPlayerInfo))
    (fc : FixtureCtx) : List Nat :=
  sortDesc (fun pid => ((weaknessScore (lookupWeakInfo data pid) fc : Nat) : ℚ)) ids

theorem feasibleB_spec {pool : List (Nat × PlayerInfo)} {budget : ℚ}
    {maxPerTeam : Nat} {preferred : List Nat} {existing : Option (List Nat)}
    {limit : Int} {S : List Nat}
    (h : feasibleB pool budget maxPerTeam preferred existing limit S = true) :
    (∀ pc ∈ formationConstraints,
        S.countP (fun pid => posOf pool pid == pc.1) = pc.2)
    ∧ (S.map (costOf pool)).sum ≤ budget
    ∧ (∀ t ∈ pool.map (fun pi => pi.2.team_id),
        S.countP (fun pid => teamOf pool pid == t) ≤ maxPerTeam)
    ∧ (∀ pid ∈ preferred, pid ∈ poolIds pool → pid ∈ S)
    ∧ (∀ l, existing = some l → l ≠ [] → 0 < limit →
        ((l.countP (fun pid =>
            (poolIds pool).contains pid && !(S.contains pid))) : Int) ≤ limit) := by
  simp only [feasibleB, Bool.and_eq_true, List.all_eq_true, decide_eq_true_eq] at h
  obtain ⟨⟨⟨⟨hpos, hbud⟩, hteam⟩, hpref⟩, htr⟩ := h
  refine ⟨?_, hbud, ?_, ?_, ?_⟩
  · intro pc hpc
    simpa using hpos pc hpc
  · intro t ht
    simpa using hteam t ht
  · intro pid hpid hmem
    have := hpref pid hpid
    rcases Bool.or_eq_true _ _ |>.mp this with hcase | hcase
    · exfalso
      rw [Bool.not_eq_true'] at hcase
      have hc2 : (poolIds pool).contains pid = true := List.elem_eq_true_of_mem hmem
      rw [hc2] at hcase
      cases hcase
    · exact List.mem_of_elem_eq_true hcase
  · intro l hl hne hlim
    subst hl
    simp only at htr
    rw [if_neg (by simp [hne, hlim])] at htr
    simpa using htr

theorem poolIds_eq (db : DB) (ex : List Nat) :
    poolIds (playerData db ex)
      = (db.players.filter
          (fun p => p.status == statusAvailable && !(ex.contains p.player_id))).map
          DBPlayer.player_id := by
  simp [poolIds, playerData, List.map_map, Function.comp]

theorem poolIds_nodup (db : DB) (ex : List Nat)
    (hnd : (db.players.map DBPlayer.player_id).Nodup) :
    (poolIds (playerData db ex)).Nodup := by
  rw [poolIds_eq]
  exact List.Nodup.sublist (List.Sublist.map _ (List.filter_sublist _)) hnd

theorem mem_poolIds_not_excluded {db : DB} {ex : List Nat} {pid : Nat}
    (h : pid ∈ poolIds (playerData db ex)) : pid ∉ ex := by
  rw [poolIds_eq] at h
  obtain ⟨p, hp, hpid⟩ := List.mem_map.mp h
  obtain ⟨_, hcond⟩ := List.mem_filter.mp hp
  intro hmem
  rw [Bool.and_eq_true, Bool.not_eq_true'] at hcond
  have : ex.contains p.player_id = true := List.elem_eq_true_of_mem (hpid ▸ hmem)
  rw [this] at hcond
  cases hcond.2

theorem find?_isSome_of_mem_poolIds {pool : List (Nat × PlayerInfo)} {pid : Nat}
    (h : pid ∈ poolIds pool) :
    ∃ q ∈ pool, pool.find? (fun pi => pi.1 == pid) = some q ∧ q.1 = pid := by
  obtain ⟨q0, hq0, hq0id⟩ := List.mem_map.mp h
  have hsome : (pool.find? (fun pi => pi.1 == pid)).isSome := by
    rw [List.find?_isSome]
    exact ⟨q0, hq0, by simp [hq0id]⟩
  obtain ⟨q, hq⟩ := Option.isSome_iff_exists.mp hsome
  refine ⟨q, List.mem_of_find?_eq_some hq, hq, ?_⟩
  have := List.find?_some hq
  simpa using this

theorem teamOf_mem_of_mem_poolIds {pool : List (Nat × PlayerInfo)} {pid : Nat}
    (h : pid ∈ poolIds pool) :
    teamOf pool pid ∈ pool.map (fun pi => pi.2.team_id) := by
  obtain ⟨q, hqmem, hq, _⟩ := find?_isSome_of_mem_poolIds h
  rw [teamOf, hq]
  exact List.mem_map.mpr ⟨q, hqmem, rfl⟩

theorem optimizeTeam_ok {db : DB} {budget : ℚ} {formation : Option String}
    {preferred excluded existing : Option (List Nat)} {maxPerTeam : Nat} {limit : Int}
    {r : OptResult}
    (h : optimizeTeam db budget formation preferred excluded maxPerTeam existing limit
      = .ok r) :
    ∃ S xi c v rest,
      solveILP (playerData db (excluded.getD [])) budget maxPerTeam
          (preferred.getD []) existing limit = some S
      ∧ S.length = 15
      ∧ selectStartingXI S formation (epOf (playerData db (excluded.getD [])))
          (posOf (playerData db (excluded.getD []))) preferred = .ok xi
      ∧ sortDesc (epOf (playerData db (excluded.getD []))) xi = c :: v :: rest
      ∧ r = mkOptResult (playerData db (excluded.getD [])) budget existing S xi c v := by
  rw [optimizeTeam] at h
  split at h
  · exact Except.noConfusion h
  · split at h
    · exact Except.noConfusion h
    · rename_i S hsol
      split at h
      · rename_i hlen
        split at h
        · exact Except.noConfusion h
        · rename_i xi hsel
          split at h
          · rename_i c v rest hsort
            exact ⟨S, xi, c, v, rest, hsol, hlen, hsel, hsort, (Except.ok.inj h).symm⟩
          · exact Except.noConfusion h
      · exact Except.noConfusion h

theorem sortDesc_length (key : α → ℚ) (l : List α) :
    (sortDesc key l).length = l.length :=
  (sortDesc_perm key l).length_eq

theorem sortDesc_mem {key : α → ℚ} {l : List α} {x : α} :
    x ∈ sortDesc key l ↔ x ∈ l :=
  (sortDesc_perm key l).mem_iff

theorem solveILP_none_iff {pool : List (Nat × PlayerInfo)} {budget : ℚ}
    {maxPerTeam : Nat} {preferred : List Nat} {existing : Option (List Nat)}
    {limit : Int} :
    solveILP pool budget maxPerTeam preferred existing limit = none
      ↔ ∀ T, T.Sublist (poolIds pool) →
          feasibleB pool budget maxPerTeam preferred existing limit T = false := by
  constructor
  · exact fun h => solveILP_none h
  · intro hall
    cases hs : solveILP pool budget maxPerTeam preferred existing limit with
    | none => rfl
    | some S =>
      obtain ⟨⟨hsub, hfeas⟩, _⟩ := solveILP_some hs
      rw [hall S hsub] at hfeas
      cases hfeas

theorem pickPositions_error {k : Nat → ℚ} {positions : Nat → String}
    {squad : List Nat} :
    ∀ {needs : List (String × Nat)} {e : OptError},
      pickPositions k positions squad needs = .error e →
      ∃ pos, e = .notEnoughPosition pos := by
  intro needs
  induction needs with
  | nil =>
    intro e h
    rw [pickPositions] at h
    exact Except.noConfusion h
  | cons pc rest ih =>
    intro e h
    rw [pickPositions] at h
    split at h
    · exact ⟨pc.1, (Except.error.inj h).symm⟩
    · split at h
      · rename_i e2 herr
        exact (Except.error.inj h) ▸ ih herr
      · exact Except.noConfusion h

theorem pickPositions_ok_iff {k : Nat → ℚ} {positions : Nat → String}
    {squad : List Nat} :
    ∀ {needs : List (String × Nat)},
      (∃ xi, pickPositions k positions squad needs = .ok xi)
        ↔ ∀ pc ∈ needs,
            pc.2 ≤ (squad.filter (fun pid => positions pid == pc.1)).length := by
  intro needs
  induction needs with
  | nil =>
    constructor
    · intro _ pc hpc
      cases hpc
    · intro _
      exact ⟨[], rfl⟩
  | cons pc rest ih =>
    constructor
    · intro ⟨xi, h⟩ pc2 hpc2
      rw [pickPositions] at h
      split at h
      · exact Except.noConfusion h
      · rename_i hnotlt
        rw [sortDesc_length] at hnotlt
        split at h
        · exact Except.noConfusion h
        · rename_i tail htail
          rcases List.mem_cons.mp hpc2 with hh | hh
          · subst hh
            omega
          · exact ih.mp ⟨tail, htail⟩ pc2 hh
    · intro hall
      rw [pickPositions]
      have hhead := hall pc (List.mem_cons_self _ _)
      rw [if_neg (by rw [sortDesc_length]; omega)]
      obtain ⟨tail, htail⟩ := ih.mpr (fun pc2 hpc2 => hall pc2 (List.mem_cons_of_mem _ hpc2))
      rw [htail]
      exact ⟨_, rfl⟩

theorem take_sortDesc_filter_spec {k : Nat → ℚ} {positions : Nat → String}
    {squad : List Nat} {pos : String} {n : Nat} {pid : Nat}
    (h : pid ∈ (sortDesc k (squad.filter (fun x => positions x == pos))).take n) :
    pid ∈ squad ∧ positions pid = pos := by
  have h2 : pid ∈ sortDesc k (squad.filter (fun x => positions x == pos)) :=
    List.take_subset n _ h
  rw [sortDesc_mem] at h2
  obtain ⟨hmem, hpos⟩ := List.mem_filter.mp h2
  exact ⟨hmem, by simpa using hpos⟩

theorem pickPositions_mem {k : Nat → ℚ} {positions : Nat → String}
    {squad : List Nat} :
    ∀ {needs : List (String × Nat)} {xi : List Nat},
      pickPositions k positions squad needs = .ok xi →
      ∀ pid ∈ xi, pid ∈ squad ∧ positions pid ∈ needs.map Prod.fst := by
  intro needs
  induction needs with
  | nil =>
    intro xi h pid hpid
    rw [pickPositions] at h
    cases Except.ok.inj h
    cases hpid
  | cons pc rest ih =>
    intro xi h pid hpid
    rw [pickPositions] at h
    split at h
    · exact Except.noConfusion h
    · split at h
      · exact Except.noConfusion h
      · rename_i tail htail
        cases Except.ok.inj h
        rcases List.mem_append.mp hpid with hh | hh
        · obtain ⟨hmem, hpos⟩ := take_sortDesc_filter_spec hh
          exact ⟨hmem, by simp [hpos]⟩
        · obtain ⟨hmem, hpos⟩ := ih htail pid hh
          refine ⟨hmem, ?_⟩
          rw [List.map_cons]
          exact List.mem_cons_of_mem _ hpos

theorem pickPositions_length {k : Nat → ℚ} {positions : Nat → String}
    {squad : List Nat} :
    ∀ {needs : List (String × Nat)} {xi : List Nat},
      pickPositions k positions squad needs = .ok xi →
      xi.length = (needs.map Prod.snd).sum := by
  intro needs
  induction needs with
  | nil =>
    intro xi h
    rw [pickPositions] at h
    cases Except.ok.inj h
    rfl
  | cons pc rest ih =>
    intro xi h
    rw [pickPositions] at h
    split at h
    · exact Except.noConfusion h
    · rename_i hnotlt
      rw [sortDesc_length] at hnotlt
      split at h
      · exact Except.noConfusion h
      · rename_i tail htail
        cases Except.ok.inj h
        rw [List.length_append, List.length_take, sortDesc_length, ih htail]
        simp
        omega

theorem pickPositions_count {k : Nat → ℚ} {positions : Nat → String}
    {squad : List Nat} :
    ∀ {needs : List (String × Nat)} {xi : List Nat},
      pickPositions k positions squad needs = .ok xi →
      (needs.map Prod.fst).Nodup →
      ∀ pc ∈ needs, xi.countP (fun pid => positions pid == pc.1) = pc.2 := by
  intro needs
  induction needs with
  | nil =>
    intro xi h _ pc hpc
    cases hpc
  | cons pc0 rest ih =>
    intro xi h hkeys pc hpc
    rw [pickPositions] at h
    split at h
    · exact Except.noConfusion h
    · rename_i hnotlt
      rw [sortDesc_length] at hnotlt
      split at h
      · exact Except.noConfusion h
      · rename_i tail htail
        cases Except.ok.inj h
        rw [List.countP_append]
        have hkeys0 : pc0.1 ∉ rest.map Prod.fst := (List.nodup_cons.mp hkeys).1
        have hkeysrest : (rest.map Prod.fst).Nodup := (List.nodup_cons.mp hkeys).2
        rcases List.mem_cons.mp hpc with hh | hh
        · subst hh
          have htake : (List.take pc.2
              (sortDesc k (squad.filter (fun x => positions x == pc.1)))).countP
              (fun pid => positions pid == pc.1)
              = (List.take pc.2
                  (sortDesc k (squad.filter (fun x => positions x == pc.1)))).length := by
            rw [List.countP_eq_length]
            intro a ha
            simp [(take_sortDesc_filter_spec ha).2]
          have htail0 : tail.countP (fun pid => positions pid == pc.1) = 0 := by
            rw [List.countP_eq_zero]
            intro a ha
            have := (pickPositions_mem htail a ha).2
            simp only [beq_iff_eq]
            intro heq
            rw [heq] at this
            exact hkeys0 this
          rw [htake, htail0, List.length_take, sortDesc_length]
          simp
          omega
        · have htake0 : (List.take pc0.2
              (sortDesc k (squad.filter (fun x => positions x == pc0.1)))).countP
              (fun pid => positions pid == pc.1) = 0 := by
            rw [List.countP_eq_zero]
            intro a ha
            have hpos := (take_sortDesc_filter_spec ha).2
            simp only [beq_iff_eq]
            intro heq
            rw [hpos] at heq
            exact hkeys0 (heq ▸ List.mem_map.mpr ⟨pc, hh, rfl⟩)
          rw [htake0, ih htail hkeysrest pc hh]
          omega

theorem pickPositions_nodup {k : Nat → ℚ} {positions : Nat → String}
    {squad : List Nat} :
    ∀ {needs : List (String × Nat)} {xi : List Nat},
      pickPositions k positions squad needs = .ok xi →
      squad.Nodup → (needs.map Prod.fst).Nodup →
      xi.Nodup := by
  intro needs
  induction needs with
  | nil =>
    intro xi h _ _
    rw [pickPositions] at h
    cases Except.ok.inj h
    exact List.nodup_nil
  | cons pc0 rest ih =>
    intro xi h hnd hkeys
    rw [pickPositions] at h
    split at h
    · exact Except.noConfusion h
    · split at h
      · exact Except.noConfusion h
      · rename_i tail htail
        cases Except.ok.inj h
        have hkeys0 : pc0.1 ∉ rest.map Prod.fst := (List.nodup_cons.mp hkeys).1
        have hkeysrest : (rest.map Prod.fst).Nodup := (List.nodup_cons.mp hkeys).2
        refine List.Nodup.append ?_ (ih htail hnd hkeysrest) ?_
        · exact List.Sublist.nodup (List.take_sublist _ _)
            ((sortDesc_perm _ _).nodup_iff.mpr (hnd.filter _))
        · intro a ha hatail
          have h1 := (take_sortDesc_filter_spec ha).2
          have h2 := (pickPositions_mem htail a hatail).2
          rw [h1] at h2
          exact hkeys0 h2

theorem parseFormationNeeds_keys (formation : Option String) :
    (parseFormationNeeds formation).map Prod.fst = allPositions := by
  rw [parseFormationNeeds.eq_def]
  split
  · rfl
  · split
    · split
      · rfl
      · rfl
    · rfl

theorem parseFormationNeeds_keys_nodup (formation : Option String) :
    ((parseFormationNeeds formation).map Prod.fst).Nodup := by
  rw [parseFormationNeeds_keys]
  simp [allPositions, posGKP, posDEF, posMID, posFWD]

theorem selectStartingXI_ok {squad : List Nat} {formation : Option String}
    {preds : Nat → ℚ} {positions : Nat → String} {preferred : Option (List Nat)}
    {xi : List Nat}
    (h : selectStartingXI squad formation preds positions preferred = .ok xi) :
    (∀ pid ∈ xi, pid ∈ squad)
    ∧ (∀ pc ∈ parseFormationNeeds formation,
        xi.countP (fun pid => positions pid == pc.1) = pc.2)
    ∧ xi.length = ((parseFormationNeeds formation).map Prod.snd).sum
    ∧ (squad.Nodup → xi.Nodup) := by
  rw [selectStartingXI] at h
  split at h
  · refine ⟨fun pid hpid => (pickPositions_mem h pid hpid).1,
      pickPositions_count h (parseFormationNeeds_keys_nodup formation),
      pickPositions_length h,
      fun hnd => pickPositions_nodup h hnd (parseFormationNeeds_keys_nodup formation)⟩
  · exact Except.noConfusion h

theorem selectStartingXI_error {squad : List Nat} {formation : Option String}
    {preds : Nat → ℚ} {positions : Nat → String} {preferred : Option (List Nat)}
    {e : OptError}
    (h : selectStartingXI squad formation preds positions preferred = .error e) :
    (∃ pos, e = .notEnoughPosition pos) ∨ e = .keyError := by
  rw [selectStartingXI] at h
  split at h
  · exact Or.inl (pickPositions_error h)
  · exact Or.inr (Except.error.inj h).symm

theorem selectStartingXI_ok_iff {squad : List Nat} {formation : Option String}
    {preds : Nat → ℚ} {positions : Nat → String} {preferred : Option (List Nat)}
    (hvalid : ∀ pid ∈ squad, allPositions.contains (positions pid) = true) :
    (∃ xi, selectStartingXI squad formation preds positions preferred = .ok xi)
      ↔ ∀ pc ∈ parseFormationNeeds formation,
          pc.2 ≤ (squad.filter (fun pid => positions pid == pc.1)).length := by
  rw [selectStartingXI, if_pos (List.all_eq_true.mpr hvalid)]
  exact pickPositions_ok_iff

theorem perm_squad_starters_bench {xi squad : List Nat} (hnd : squad.Nodup)
    (hxnd : xi.Nodup) (hsub : ∀ a ∈ xi, a ∈ squad) :
    List.Perm (xi ++ squad.filter (fun a => !(xi.contains a))) squad := by
  have hfil : (squad.filter (fun a => !(xi.contains a))).Nodup := hnd.filter _
  have hdisj : List.Disjoint xi (squad.filter (fun a => !(xi.contains a))) := by
    intro a ha hafil
    obtain ⟨_, hcond⟩ := List.mem_filter.mp hafil
    rw [Bool.not_eq_true'] at hcond
    have hc2 : xi.contains a = true := List.elem_eq_true_of_mem ha
    rw [hc2] at hcond
    cases hcond
  refine (List.perm_ext_iff_of_nodup (List.Nodup.append hxnd hfil hdisj) hnd).mpr ?_
  intro a
  constructor
  · intro ha
    rcases List.mem_append.mp ha with hh | hh
    · exact hsub a hh
    · exact (List.mem_filter.mp hh).1
  · intro ha
    by_cases hx : a ∈ xi
    · exact List.mem_append.mpr (Or.inl hx)
    · refine List.mem_append.mpr (Or.inr (List.mem_filter.mpr ⟨ha, ?_⟩))
      rw [Bool.not_eq_true']
      by_cases hc : xi.contains a = true
      · exact absurd (List.mem_of_elem_eq_true hc) hx
      · exact Bool.not_eq_true _ ▸ hc

theorem sortDesc_head_max {key : α → ℚ} {l : List α} {c : α} {rest : List α}
    (h : sortDesc key l = c :: rest) : ∀ x ∈ l, key x ≤ key c := by
  intro x hx
  have hx2 : x ∈ c :: rest := by
    rw [← h, sortDesc_mem]
    exact hx
  rcases List.mem_cons.mp hx2 with hh | hh
  · exact hh ▸ le_refl _
  · have hsorted := sortDesc_sorted key l
    rw [h] at hsorted
    exact (List.pairwise_cons.mp hsorted).1 x hh

theorem mgStep_fold_rest (f : Nat) (base : ℚ) (pid : Nat) :
    ∀ (rest : List (Nat × FixtureCtx)) (a m : ℚ),
      (∀ gwctx ∈ rest, gwctx.1 ≠ f) →
      rest.foldl (mgStep (some f) base pid) (a, m)
        = (a, m + (rest.map
            (fun gwctx =>
              specHorizonWeight f gwctx.1 * specFixtureAdjust gwctx.2 pid base)).sum) := by
  intro rest
  induction rest with
  | nil =>
    intro a m _
    simp
  | cons gwctx tail ih =>
    intro a m hne
    have hkey : gwctx.1 ≠ f := hne gwctx (List.mem_cons_self _ _)
    have hstep : mgStep (some f) base pid (a, m) gwctx
        = (a, m + specHorizonWeight f gwctx.1 * specFixtureAdjust gwctx.2 pid base) := by
      rw [mgStep]
      have hcond : ¬ ((some f : Option Nat) = some gwctx.1) := by
        intro hc
        exact hkey (Option.some.inj hc).symm
      cases hfind : ctxFind gwctx.2 pid with
      | some e =>
        simp only [hfind, if_neg hcond]
        rw [specHorizonWeight, if_neg (fun hc => hkey hc), specFixtureAdjust, hfind]
        simp only [Option.getD_some]
        rw [Prod.mk.injEq]
        exact ⟨rfl, by rw [mul_comm]⟩
      | none =>
        simp only [hfind, if_neg hcond]
        rw [specFixtureAdjust, hfind]
        simp
    rw [List.foldl_cons, hstep, ih _ _ (fun g hg => hne g (List.mem_cons_of_mem _ hg))]
    rw [List.map_cons, List.sum_cons]
    rw [Prod.mk.injEq]
    exact ⟨rfl, add_assoc _ _ _⟩

theorem multiGwScores_spec (c0 : Nat × FixtureCtx) (rest : List (Nat × FixtureCtx))
    (base : ℚ) (pid : Nat)
    (hnd : (((c0 :: rest).map Prod.fst)).Nodup) :
    (multiGwScores (c0 :: rest) base pid).2 = specHorizonValue (c0 :: rest) base pid
    ∧ (multiGwScores (c0 :: rest) base pid).1 = specFixtureAdjust c0.2 pid base := by
  have hne : ∀ g ∈ rest, g.1 ≠ c0.1 := by
    intro g hg heq
    rw [List.map_cons] at hnd
    exact (List.nodup_cons.mp hnd).1 (heq ▸ List.mem_map.mpr ⟨g, hg, rfl⟩)
  have hh1 : ((c0 :: rest).head?.map Prod.fst) = some c0.1 := rfl
  have hsum : specHorizonValue (c0 :: rest) base pid
      = specHorizonWeight c0.1 c0.1 * specFixtureAdjust c0.2 pid base
        + (rest.map
            (fun gwctx =>
              specHorizonWeight c0.1 gwctx.1 * specFixtureAdjust gwctx.2 pid base)).sum := by
    rw [specHorizonValue, hh1]
    rw [List.map_cons, List.sum_cons]
    rfl
  have hw : specHorizonWeight c0.1 c0.1 = 1.5 := by
    rw [specHorizonWeight, if_pos rfl]
  rw [multiGwScores, hh1, List.foldl_cons]
  cases hfind : ctxFind c0.2 pid with
  | some e =>
    have hstep : mgStep (some c0.1) base pid (base, 0) c0
        = (adjustEntry base e, 0 + adjustEntry base e * 1.5) := by
      rw [mgStep, hfind]
      simp
    rw [hstep, mgStep_fold_rest c0.1 base pid rest _ _ hne, hsum]
    have hadj : specFixtureAdjust c0.2 pid base = adjustEntry base e := by
      rw [specFixtureAdjust, hfind]
    rw [hadj, hw]
    exact ⟨by ring_nf, rfl⟩
  | none =>
    have hstep : mgStep (some c0.1) base pid (base, 0) c0 = (0, 0) := by
      rw [mgStep, hfind]
      simp
    rw [hstep, mgStep_fold_rest c0.1 base pid rest _ _ hne, hsum]
    have hadj : specFixtureAdjust c0.2 pid base = 0 := by
      rw [specFixtureAdjust, hfind]
    rw [hadj, hw]
    exact ⟨by ring_nf, rfl⟩

theorem filterMap_fst_sublist (φ : DBPlayer → Bool) (f : DBPlayer → Option (Nat × ℚ))
    (hf : ∀ p x, f p = some x → x.1 = p.player_id) :
    ∀ l : List DBPlayer,
      (((l.filter φ).filterMap f).map Prod.fst).Sublist (l.map DBPlayer.player_id) := by
  intro l
  induction l with
  | nil => simp
  | cons p t ih =>
    rw [List.filter_cons]
    by_cases hφ : φ p = true
    · rw [if_pos hφ, List.filterMap_cons]
      cases hfp : f p with
      | none =>
        rw [List.map_cons]
        exact List.Sublist.cons _ ih
      | some x =>
        rw [List.map_cons, List.map_cons, hf p x hfp]
        exact List.Sublist.cons₂ _ ih
    · rw [if_neg hφ, List.map_cons]
      exact List.Sublist.cons _ ih

theorem captainScored_ids_sublist (db : DB) (team : List Nat) (fc : Option FixtureCtx) :
    (((captainScored db team fc)).map Prod.fst).Sublist
      (db.players.map DBPlayer.player_id) := by
  rw [captainScored]
  exact filterMap_fst_sublist _ _ (fun p x hx => by
    obtain ⟨q, _, hq⟩ := Option.map_eq_some'.mp hx
    rw [← hq]) db.players

theorem captainScored_nodup (db : DB) (team : List Nat) (fc : Option FixtureCtx)
    (hnd : (db.players.map DBPlayer.player_id).Nodup) :
    ((captainScored db team fc).map Prod.fst).Nodup :=
  List.Nodup.sublist (captainScored_ids_sublist db team fc) hnd

theorem captainScored_mem_team {db : DB} {team : List Nat} {fc : Option FixtureCtx}
    {x : Nat × ℚ} (h : x ∈ captainScored db team fc) : x.1 ∈ team := by
  rw [captainScored] at h
  obtain ⟨p, hp, hpx⟩ := List.mem_filterMap.mp h
  obtain ⟨_, hcond⟩ := List.mem_filter.mp hp
  obtain ⟨q, _, hq⟩ := Option.map_eq_some'.mp hpx
  rw [← hq]
  exact List.mem_of_elem_eq_true hcond

theorem suggestCaptain_none_iff (db : DB) (team : List Nat) (fc : Option FixtureCtx) :
    suggestCaptain db team fc = none ↔ captainScored db team fc = [] := by
  rw [suggestCaptain]
  cases hs : sortDesc (fun x => x.2 * 2) (captainScored db team fc) with
  | nil =>
    constructor
    · intro _
      have := sortDesc_perm (fun x : Nat × ℚ => x.2 * 2) (captainScored db team fc)
      rw [hs] at this
      exact (List.Perm.nil_eq this).symm
    · intro _
      rfl
  | cons c rest =>
    constructor
    · intro hcon
      exact Option.noConfusion hcon
    · intro hempty
      rw [hempty] at hs
      simp [sortDesc] at hs

theorem feasibleB_mono_budget {pool : List (Nat × PlayerInfo)} {b1 b2 : ℚ}
    {maxPerTeam : Nat} {preferred : List Nat} {existing : Option (List Nat)}
    {limit : Int} {S : List Nat} (hb : b1 ≤ b2)
    (h : feasibleB pool b1 maxPerTeam preferred existing limit S = true) :
    feasibleB pool b2 maxPerTeam preferred existing limit S = true := by
  simp only [feasibleB, Bool.and_eq_true, decide_eq_true_eq] at h ⊢
  exact ⟨⟨⟨⟨h.1.1.1.1, le_trans h.1.1.1.2 hb⟩, h.1.1.2⟩, h.1.2⟩, h.2⟩

/-- C1: For every optimization call that returns a squad, the squad has
exactly 15 unique player ids, total cost within the budget, exactly the
2/5/5/3 position quota, at most `max_players_per_team` members of any club,
and no excluded id. (The `Nodup` hypothesis is the database's primary-key
invariant on `player_id`.) -/
theorem c1_squad_invariants {db : DB} {budget : ℚ} {formation : Option String}
    {preferred excluded existing : Option (List Nat)} {maxPerTeam : Nat}
    {limit : Int} {r : OptResult}
    (hnd : (db.players.map DBPlayer.player_id).Nodup)
    (hok : optimizeTeam db budget formation preferred excluded maxPerTeam existing limit
      = .ok r) :
    r.players.length = 15
    ∧ r.players.Nodup
    ∧ (r.players.map (costOf (playerData db (excluded.getD [])))).sum ≤ budget
    ∧ (∀ pc ∈ formationConstraints,
        r.players.countP
          (fun pid => posOf (playerData db (excluded.getD [])) pid == pc.1) = pc.2)
    ∧ (∀ t : Nat,
        r.players.countP
          (fun pid => teamOf (playerData db (excluded.getD [])) pid == t) ≤ maxPerTeam)
    ∧ (∀ e ∈ excluded.getD [], e ∉ r.players) := by
  obtain ⟨S, xi, c, v, rest, hsol, hlen, hsel, hsort, hr⟩ := optimizeTeam_ok hok
  obtain ⟨⟨hsub, hfeas⟩, _⟩ := solveILP_some hsol
  obtain ⟨hpos, hbud, hteam, _, _⟩ := feasibleB_spec hfeas
  have hplayers : r.players = S := by rw [hr]; rfl
  subst hplayers
  refine ⟨hlen, ?_, hbud, hpos, ?_, ?_⟩
  · exact List.Nodup.sublist hsub (poolIds_nodup db (excluded.getD []) hnd)
  · intro t
    by_cases ht : t ∈ (playerData db (excluded.getD [])).map (fun pi => pi.2.team_id)
    · exact hteam t ht
    · have : r.players.countP
          (fun pid => teamOf (playerData db (excluded.getD [])) pid == t) = 0 := by
        rw [List.countP_eq_zero]
        intro pid hpid
        have hmem : pid ∈ poolIds (playerData db (excluded.getD [])) :=
          hsub.subset hpid
        have := teamOf_mem_of_mem_poolIds hmem
        simp only [beq_iff_eq]
        intro heq
        exact ht (heq ▸ this)
      omega
  · intro e he hmem
    have : e ∈ poolIds (playerData db (excluded.getD [])) := hsub.subset hmem
    exact mem_poolIds_not_excluded this he

/-- C9: Increasing the budget while holding every other input fixed never
decreases the optimal total projected value reported by the optimizer. -/
theorem c9_budget_monotone {db : DB} {formation : Option String}
    {preferred excluded existing : Option (List Nat)} {maxPerTeam : Nat}
    {limit : Int} {b1 b2 : ℚ} {r1 r2 : OptResult}
    (hb : b1 ≤ b2)
    (h1 : optimizeTeam db b1 formation preferred excluded maxPerTeam existing limit
      = .ok r1)
    (h2 : optimizeTeam db b2 formation preferred excluded maxPerTeam existing limit
      = .ok r2) :
    r1.objective_value ≤ r2.objective_value := by
  obtain ⟨S1, xi1, c1, v1, rest1, hsol1, _, _, _, hr1⟩ := optimizeTeam_ok h1
  obtain ⟨S2, xi2, c2, v2, rest2, hsol2, _, _, _, hr2⟩ := optimizeTeam_ok h2
  obtain ⟨⟨hsub1, hfeas1⟩, _⟩ := solveILP_some hsol1
  obtain ⟨_, hmax2⟩ := solveILP_some hsol2
  have hobj1 : r1.objective_value = objVal (playerData db (excluded.getD [])) S1 := by
    rw [hr1]; rfl
  have hobj2 : r2.objective_value = objVal (playerData db (excluded.getD [])) S2 := by
    rw [hr2]; rfl
  rw [hobj1, hobj2]
  exact hmax2 S1 hsub1 (feasibleB_mono_budget hb hfeas1)

/-- C2 (amended): every preferred id that is present in the eligible pool is
in the returned squad; a preferred id outside the pool (excluded or
unavailable) imposes no constraint at all, and `Infeasible` is reported
exactly when the constraints over the pool cannot be jointly satisfied. -/
theorem c2_preferred_amended (db : DB) (budget : ℚ) (formation : Option String)
    (preferred excluded existing : Option (List Nat)) (maxPerTeam : Nat)
    (limit : Int) :
    (∀ r, optimizeTeam db budget formation preferred excluded maxPerTeam existing limit
        = .ok r →
      ∀ pid ∈ preferred.getD [], pid ∈ poolIds (playerData db (excluded.getD [])) →
        pid ∈ r.players)
    ∧ (playerData db (excluded.getD []) ≠ [] →
        (∀ T, T.Sublist (poolIds (playerData db (excluded.getD []))) →
          feasibleB (playerData db (excluded.getD [])) budget maxPerTeam
            (preferred.getD []) existing limit T = false) →
        optimizeTeam db budget formation preferred excluded maxPerTeam existing limit
          = .error .infeasible) := by
  constructor
  · intro r hok pid hpid hpool
    obtain ⟨S, xi, c, v, rest, hsol, _, _, _, hr⟩ := optimizeTeam_ok hok
    obtain ⟨⟨_, hfeas⟩, _⟩ := solveILP_some hsol
    obtain ⟨_, _, _, hpref, _⟩ := feasibleB_spec hfeas
    have hplayers : r.players = S := by rw [hr]; rfl
    rw [hplayers]
    exact hpref pid hpid hpool
  · intro hpool hinf
    rw [optimizeTeam]
    rw [if_neg (by
      intro hemp
      exact hpool (List.isEmpty_iff.mp hemp))]
    rw [solveILP_none_iff.mpr hinf]

/-- C3 (amended): when an existing squad is supplied with `max_transfers ≥ 1`,
the single-gameweek optimizer drops at most `max_transfers` of the incumbents
that are present in the eligible pool (incumbents outside the pool are not
counted by the constraint). With `max_transfers = 0` the source skips the
constraint entirely, and the multi-gameweek optimizer never adds it. -/
theorem c3_transfer_limit {db : DB} {budget : ℚ} {formation : Option String}
    {preferred excluded : Option (List Nat)} {maxPerTeam : Nat} {limit : Int}
    {l : List Nat} {r : OptResult}
    (hlim : 0 < limit) (hne : l ≠ [])
    (hok : optimizeTeam db budget formation preferred excluded maxPerTeam (some l) limit
      = .ok r) :
    ((l.countP (fun pid =>
        (poolIds (playerData db (excluded.getD []))).contains pid
          && !(r.players.contains pid))) : Int) ≤ limit := by
  obtain ⟨S, xi, c, v, rest, hsol, _, _, _, hr⟩ := optimizeTeam_ok hok
  obtain ⟨⟨_, hfeas⟩, _⟩ := solveILP_some hsol
  obtain ⟨_, _, _, _, htr⟩ := feasibleB_spec hfeas
  have hplayers : r.players = S := by rw [hr]; rfl
  rw [hplayers]
  exact htr l rfl hne hlim

/-- C4 (amended): `NoData` is reported exactly when the eligible pool is
empty; a nonempty pool that cannot satisfy the constraints — including one
lacking enough players for some position quota — yields `Infeasible`. -/
theorem c4_error_taxonomy (db : DB) (budget : ℚ) (formation : Option String)
    (preferred excluded existing : Option (List Nat)) (maxPerTeam : Nat)
    (limit : Int) :
    (optimizeTeam db budget formation preferred excluded maxPerTeam existing limit
        = .error .noData
      ↔ playerData db (excluded.getD []) = [])
    ∧ (optimizeTeam db budget formation preferred excluded maxPerTeam existing limit
        = .error .infeasible
      ↔ playerData db (excluded.getD []) ≠ []
        ∧ ∀ T, T.Sublist (poolIds (playerData db (excluded.getD []))) →
            feasibleB (playerData db (excluded.getD [])) budget maxPerTeam
              (preferred.getD []) existing limit T = false) := by
  rw [optimizeTeam]
  by_cases hemp : (playerData db (excluded.getD [])).isEmpty = true
  · rw [if_pos hemp]
    have hnil : playerData db (excluded.getD []) = [] := List.isEmpty_iff.mp hemp
    constructor
    · simp [hnil]
    · constructor
      · intro hcon
        exact absurd (Except.error.inj hcon) (by intro h; cases h)
      · intro ⟨hh, _⟩
        exact absurd hnil hh
  · rw [if_neg hemp]
    have hnnil : playerData db (excluded.getD []) ≠ [] := by
      intro hh
      exact hemp (List.isEmpty_iff.mpr hh)
    cases hsol : solveILP (playerData db (excluded.getD [])) budget maxPerTeam
        (preferred.getD []) existing limit with
    | none =>
      constructor
      · constructor
        · intro hcon
          exact absurd (Except.error.inj hcon) (by intro h; cases h)
        · intro hnil
          exact absurd hnil hnnil
      · constructor
        · intro _
          exact ⟨hnnil, solveILP_none hsol⟩
        · intro _
          rfl
    | some S =>
      have hnoterr : ∀ e : OptError,
          (if S.length = 15 then
            match selectStartingXI S formation (epOf (playerData db (excluded.getD [])))
                (posOf (playerData db (excluded.getD []))) preferred with
            | Except.error e => Except.error e
            | Except.ok xi =>
              match sortDesc (epOf (playerData db (excluded.getD []))) xi with
              | c :: v :: _ =>
                Except.ok (mkOptResult (playerData db (excluded.getD [])) budget existing
                  S xi c v)
              | _ => Except.error OptError.indexError
          else Except.error OptError.invalidTeamSize) = Except.error e →
          e ≠ .noData ∧ e ≠ .infeasible := by
        intro e he
        split at he
        · split at he
          · rename_i e2 hsel
            cases Except.error.inj he
            rcases selectStartingXI_error hsel with ⟨pos, hh⟩ | hh
            · subst hh
              exact ⟨(fun h => by cases h), (fun h => by cases h)⟩
            · subst hh
              exact ⟨(fun h => by cases h), (fun h => by cases h)⟩
          · split at he
            · exact Except.noConfusion he
            · cases Except.error.inj he
              exact ⟨(fun h => by cases h), (fun h => by cases h)⟩
        · cases Except.error.inj he
          exact ⟨(fun h => by cases h), (fun h => by cases h)⟩
      constructor
      · constructor
        · intro hcon
          exact absurd rfl (hnoterr _ hcon).1
        · intro hnil
          exact absurd hnil hnnil
      · constructor
        · intro hcon
          exact absurd rfl (hnoterr _ hcon).2
        · intro ⟨_, hall⟩
          obtain ⟨⟨hsub, hfeas⟩, _⟩ := solveILP_some hsol
          rw [hall S hsub] at hfeas
          cases hfeas

/-- C5 (amended): for a squad whose positions are all valid, a successful
starting-XI selection returns starters from the squad with per-position
counts exactly matching the parsed formation (1 GK implied, 3-4-3 fallback
for an absent or unparseable formation), totalling `1 + def + mid + fwd`
players — 11 exactly when the formation parts sum to 10 — with the bench
being the squad minus the starters; selection fails iff some position has
fewer squad members than the formation requires. -/
theorem c5_lineup_amended (squad : List Nat) (formation : Option String)
    (preds : Nat → ℚ) (positions : Nat → String) (preferred : Option (List Nat))
    (hvalid : squad.all (fun pid => allPositions.contains (positions pid)) = true)
    (hnd : squad.Nodup) :
    (∀ xi, selectStartingXI squad formation preds positions preferred = .ok xi →
      (∀ pid ∈ xi, pid ∈ squad)
      ∧ (∀ pc ∈ parseFormationNeeds formation,
          xi.countP (fun pid => positions pid == pc.1) = pc.2)
      ∧ xi.length = ((parseFormationNeeds formation).map Prod.snd).sum
      ∧ xi.Nodup
      ∧ List.Perm (xi ++ squad.filter (fun a => !(xi.contains a))) squad)
    ∧ ((∃ xi, selectStartingXI squad formation preds positions preferred = .ok xi)
        ↔ ∀ pc ∈ parseFormationNeeds formation,
            pc.2 ≤ (squad.filter (fun pid => positions pid == pc.1)).length) := by
  constructor
  · intro xi hok
    obtain ⟨hmem, hcount, hlen, hndxi⟩ := selectStartingXI_ok hok
    exact ⟨hmem, hcount, hlen, hndxi hnd,
      perm_squad_starters_bench hnd (hndxi hnd) hmem⟩
  · exact selectStartingXI_ok_iff (List.all_eq_true.mp hvalid)

/-- C6 (amended): a successful captain suggestion picks captain and
vice-captain from the player list it is given (the full squad in the
gameweek pipeline, so the captain need not be a starter); the captain's
fixture-adjusted score is maximal among all scored players, captain and vice
are distinct whenever at least two players are scored, and with exactly one
scored player the vice equals the captain. -/
theorem c6_captain_amended {db : DB} {team : List Nat} {fc : Option FixtureCtx}
    {r : CaptainResult}
    (hnd : (db.players.map DBPlayer.player_id).Nodup)
    (hok : suggestCaptain db team fc = some r) :
    r.captain_id ∈ team
    ∧ r.vice_captain_id ∈ team
    ∧ (∃ s, (r.captain_id, s) ∈ captainScored db team fc
        ∧ ∀ p ∈ captainScored db team fc, p.2 ≤ s)
    ∧ ((captainScored db team fc).length = 1 → r.vice_captain_id = r.captain_id)
    ∧ (2 ≤ (captainScored db team fc).length → r.captain_id ≠ r.vice_captain_id) := by
  rw [suggestCaptain] at hok
  cases hsort : sortDesc (fun x => x.2 * 2) (captainScored db team fc) with
  | nil =>
    rw [hsort] at hok
    exact Option.noConfusion hok
  | cons c rest =>
    rw [hsort] at hok
    have hr := Option.some.inj hok
    have hcap : r.captain_id = c.1 := by rw [← hr]
    have hvice : r.vice_captain_id = (rest.headD c).1 := by rw [← hr]
    have hperm := sortDesc_perm (fun x : Nat × ℚ => x.2 * 2) (captainScored db team fc)
    rw [hsort] at hperm
    have hcmem : c ∈ captainScored db team fc :=
      hperm.subset (List.mem_cons_self _ _)
    have hvmem : rest.headD c ∈ captainScored db team fc := by
      cases rest with
      | nil => exact hcmem
      | cons v rest2 =>
        exact hperm.subset (List.mem_cons_of_mem _ (List.mem_cons_self _ _))
    refine ⟨hcap ▸ captainScored_mem_team hcmem,
      hvice ▸ captainScored_mem_team hvmem, ?_, ?_, ?_⟩
    · refine ⟨c.2, ?_, ?_⟩
      · rw [hcap]
        exact hcmem
      · intro p hp
        have := sortDesc_head_max hsort p hp
        linarith
    · intro hone
      have hlen : (c :: rest).length = 1 := by
        rw [hperm.length_eq, hone]
      have hrest : rest = [] := by
        simpa using hlen
      subst hrest
      rw [hvice, hcap]
      rfl
    · intro htwo
      have hlen : 2 ≤ (c :: rest).length := by
        rw [hperm.length_eq]
        exact htwo
      cases rest with
      | nil => simp at hlen
      | cons v rest2 =>
        have hids : ((c :: v :: rest2).map Prod.fst).Nodup := by
          have h1 := captainScored_nodup db team fc hnd
          exact (hperm.map Prod.fst).nodup_iff.mpr h1
        rw [hcap, hvice]
        simp only [List.headD_cons]
        rw [List.map_cons, List.map_cons, List.nodup_cons] at hids
        intro heq
        exact hids.1 (heq ▸ List.mem_cons_self _ _)

/-- C10: `suggest_captain` never propagates an error — it is total, and it
returns the empty dict (`none`) exactly when no player of the given list has
a prediction row, in particular whenever the prediction table is empty. -/
theorem c10_captain_swallow (db : DB) (team : List Nat) (fc : Option FixtureCtx) :
    (suggestCaptain db team fc = none ↔ captainScored db team fc = [])
    ∧ (db.predictions = [] → suggestCaptain db team fc = none) := by
  refine ⟨suggestCaptain_none_iff db team fc, ?_⟩
  intro hpred
  rw [suggestCaptain_none_iff]
  rw [captainScored]
  rw [List.filterMap_eq_nil_iff]
  intro p _
  rw [lookupPred, hpred]
  rfl

/-- A test player row. -/
def mkTestPlayer (pid team : Nat) (pos : String) (cost : Nat) (st : String) : DBPlayer :=
  { player_id := pid, web_name := String.mk [], position := pos, now_cost := cost
    team_id := team, status := st, form := 5, total_points := 100 }

/-- A 15-player database forming exactly one feasible squad. -/
def dbW : DB :=
  { players :=
      [mkTestPlayer 1 1 posGKP 50 statusAvailable, mkTestPlayer 2 1 posGKP 50 statusAvailable,
       mkTestPlayer 3 1 posDEF 50 statusAvailable, mkTestPlayer 4 2 posDEF 50 statusAvailable,
       mkTestPlayer 5 2 posDEF 50 statusAvailable, mkTestPlayer 6 2 posDEF 50 statusAvailable,
       mkTestPlayer 7 3 posDEF 50 statusAvailable, mkTestPlayer 8 3 posMID 50 statusAvailable,
       mkTestPlayer 9 3 posMID 50 statusAvailable, mkTestPlayer 10 4 posMID 50 statusAvailable,
       mkTestPlayer 11 4 posMID 50 statusAvailable, mkTestPlayer 12 4 posMID 50 statusAvailable,
       mkTestPlayer 13 5 posFWD 50 statusAvailable, mkTestPlayer 14 5 posFWD 50 statusAvailable,
       mkTestPlayer 15 5 posFWD 50 statusAvailable]
    predictions :=
      [(1, 51/10), (2, 5), (3, 49/10), (4, 48/10), (5, 47/10), (6, 46/10), (7, 45/10),
       (8, 44/10), (9, 43/10), (10, 42/10), (11, 41/10), (12, 4), (13, 39/10),
       (14, 38/10), (15, 37/10)]
    fixtures := [] }

/-- The result of optimizing over `dbW` with a budget of 100. -/
def rW : OptResult :=
  { players := [1, 2, 3, 4, 5, 6, 7, 8, 9, 10, 11, 12, 13, 14, 15]
    starting_xi := [1, 3, 4, 5, 8, 9, 10, 11, 13, 14, 15]
    bench := [2, 6, 7, 12]
    captain_id := 1
    vice_captain_id := 3
    total_cost := 75
    expected_points := 479/10
    squad_expected_points := 66
    objective_value := 66
    budget_remaining := 25
    transfers_in := none
    transfers_out := none }

/-- The same result with a budget of 101 (only the remaining budget moves). -/
def rW101 : OptResult := { rW with budget_remaining := 26 }

/-- `dbW` plus an unavailable (injured) forward with id 99. -/
def dbC2 : DB :=
  { players := dbW.players ++ [mkTestPlayer 99 6 posFWD 50 (String.singleton (Char.ofNat 105))]
    predictions := dbW.predictions ++ [(99, 9)]
    fixtures := [] }

/-- `dbW` plus a strictly better available midfielder with id 16. -/
def dbC3 : DB :=
  { players := dbW.players ++ [mkTestPlayer 16 6 posMID 50 statusAvailable]
    predictions := dbW.predictions ++ [(16, 9)]
    fixtures := [] }

/-- The ids of the incumbent squad used in the transfer-limit claims. -/
def existing15 : List Nat := [1, 2, 3, 4, 5, 6, 7, 8, 9, 10, 11, 12, 13, 14, 15]

/-- A database whose eligible pool is nonempty but cannot fill the quota. -/
def dbC4 : DB :=
  { players := [mkTestPlayer 1 1 posGKP 50 statusAvailable]
    predictions := [(1, 5)]
    fixtures := [] }

/-- The result of optimizing over `dbC3` with the incumbent squad: the
optimum swaps incumbent 12 for the better midfielder 16 (one transfer). -/
def rC3 : OptResult :=
  { players := [1, 2, 3, 4, 5, 6, 7, 8, 9, 10, 11, 13, 14, 15, 16]
    starting_xi := [1, 3, 4, 5, 16, 8, 9, 10, 13, 14, 15]
    bench := [2, 6, 7, 11]
    captain_id := 16
    vice_captain_id := 1
    total_cost := 75
    expected_points := 264/5
    squad_expected_points := 71
    objective_value := 71
    budget_remaining := 25
    transfers_in := some [16]
    transfers_out := some [12] }

/-- A 15-player database with gameweek-1 fixtures making the bench
goalkeeper (id 2, club 5, at home against an easy opponent) the top
fixture-adjusted scorer while every other club plays away against a hard
opponent. -/
def dbC6 : DB :=
  { players :=
      [mkTestPlayer 1 1 posGKP 50 statusAvailable, mkTestPlayer 2 5 posGKP 50 statusAvailable,
       mkTestPlayer 3 1 posDEF 50 statusAvailable, mkTestPlayer 4 1 posDEF 50 statusAvailable,
       mkTestPlayer 5 2 posDEF 50 statusAvailable, mkTestPlayer 6 2 posDEF 50 statusAvailable,
       mkTestPlayer 7 2 posDEF 50 statusAvailable, mkTestPlayer 8 3 posMID 50 statusAvailable,
       mkTestPlayer 9 3 posMID 50 statusAvailable, mkTestPlayer 10 3 posMID 50 statusAvailable,
       mkTestPlayer 11 4 posMID 50 statusAvailable, mkTestPlayer 12 4 posMID 50 statusAvailable,
       mkTestPlayer 13 4 posFWD 50 statusAvailable, mkTestPlayer 14 5 posFWD 50 statusAvailable,
       mkTestPlayer 15 5 posFWD 50 statusAvailable]
    predictions :=
      [(1, 51/10), (2, 5), (3, 49/10), (4, 48/10), (5, 47/10), (6, 46/10), (7, 42/10),
       (8, 99/20), (9, 97/20), (10, 95/20), (11, 93/20), (12, 41/10), (13, 45/10),
       (14, 44/10), (15, 43/10)]
    fixtures :=
      [{ fixture_id := 101, gameweek := 1, home_team_id := 5, away_team_id := 20,
         home_difficulty := some 1, away_difficulty := some 3 },
       { fixture_id := 102, gameweek := 1, home_team_id := 21, away_team_id := 1,
         home_difficulty := some 3, away_difficulty := some 5 },
       { fixture_id := 103, gameweek := 1, home_team_id := 22, away_team_id := 2,
         home_difficulty := some 3, away_difficulty := some 5 },
       { fixture_id := 104, gameweek := 1, home_team_id := 23, away_team_id := 3,
         home_difficulty := some 3, away_difficulty := some 5 },
       { fixture_id := 105, gameweek := 1, home_team_id := 24, away_team_id := 4,
         home_difficulty := some 3, away_difficulty := some 5 }] }

/-- The gameweek-1 pipeline result over `dbC6`: `suggest_captain`, fed the
full squad, overwrote the captain with bench goalkeeper 2. -/
def rC6 : OptResult :=
  { players := [1, 2, 3, 4, 5, 6, 7, 8, 9, 10, 11, 12, 13, 14, 15]
    starting_xi := [1, 3, 4, 5, 8, 9, 10, 11, 13, 14, 15]
    bench := [2, 6, 7, 12]
    captain_id := 2
    vice_captain_id := 14
    total_cost := 75
    expected_points := 519/10
    squad_expected_points := 349/5
    objective_value := 349/5
    budget_remaining := 25
    transfers_in := none
    transfers_out := none }

/-- The captain suggestion over `dbC6` for the two goalkeepers only. -/
def rCapW : CaptainResult :=
  { captain_id := 2
    vice_captain_id := 1
    captain_expected_points := 63/5
    vice_captain_expected_points := 102/25 }

/-- Positions of the standalone starting-XI test squad. -/
def posFn (pid : Nat) : String :=
  if pid ≤ 2 then posGKP
  else if pid ≤ 7 then posDEF
  else if pid ≤ 12 then posMID
  else posFWD

/-- Predictions of the standalone starting-XI test squad (decreasing in id). -/
def predsFn (pid : Nat) : ℚ := ((30 - pid : Nat) : ℚ)

def squadC5 : List Nat := [1, 2, 3, 4, 5, 6, 7, 8, 9, 10, 11, 12, 13, 14, 15]

def formation222 : String := String.mk
  [Char.ofNat 50, Char.ofNat 45, Char.ofNat 50, Char.ofNat 45, Char.ofNat 50]

def formation442 : String := String.mk
  [Char.ofNat 52, Char.ofNat 45, Char.ofNat 52, Char.ofNat 45, Char.ofNat 50]

/-- The 7 starters returned for the parseable formation `2-2-2`. -/
def xiC5 : List Nat := [1, 3, 4, 8, 9, 13, 14]

/-- The 11 starters returned for the formation `4-4-2`. -/
def xiC5b : List Nat := [1, 3, 4, 5, 6, 8, 9, 10, 11, 13, 14]

/-- A home fixture-context entry with difficulty 2 for the C7 witness. -/
def ctxH : FixtureCtx := [(7, mkFixtureEntry 500 true 2 9)]

/-- An away fixture-context entry with difficulty 5 for the C7 witness. -/
def ctxA : FixtureCtx := [(7, mkFixtureEntry 501 false 5 9)]

/-- The three-gameweek horizon window used by the C7 witness: a home fixture
in gameweek 3, no fixture in gameweek 4, an away fixture in gameweek 5. -/
def ctxs7rest : List (Nat × FixtureCtx) := [(4, ([] : FixtureCtx)), (5, ctxA)]

/-- The database exhibiting the weakness-score fixture bug: player 10 of
club 2 plays away with difficulty 5 in gameweek 7. -/
def dbC8 : DB :=
  { players := [mkTestPlayer 10 2 posMID 50 statusAvailable]
    predictions := []
    fixtures :=
      [{ fixture_id := 201, gameweek := 7, home_team_id := 1, away_team_id := 2,
         home_difficulty := some 2, away_difficulty := some 5 }] }

/-- The incumbent record analysed by the weakness scorer: decent form 5.0,
expected points 5.0, cost 5.0 — only the hard fixture could add weight. -/
def infoC8 : WeakPlayerInfo :=
  { id := 10, name := String.mk [], position := posMID, team_id := 2, cost := 5,
    form := 5, total_points := 100, expected_points := 5 }

def dataC8 : List (Nat × WeakPlayerInfo) := [(10, infoC8)]

/-- C7: the multi-gameweek objective coefficient of a player equals
`Σ_g weight(g)·fixture_adjust(player, g)` with weight 1.5 on the first
gameweek and `max(0.5, 1 − 0.1·(g − first))` afterwards, a missing fixture
contributing exactly 0; the separately reported current-gameweek value is
the unboosted (weight-1) adjusted value of the first gameweek. -/
theorem c7_horizon_objective (c0 : Nat × FixtureCtx) (rest : List (Nat × FixtureCtx))
    (base : ℚ) (pid : Nat)
    (hnd : ((c0 :: rest).map Prod.fst).Nodup) :
    (multiGwScores (c0 :: rest) base pid).2 = specHorizonValue (c0 :: rest) base pid
    ∧ (multiGwScores (c0 :: rest) base pid).1 = specFixtureAdjust c0.2 pid base :=
  multiGwScores_spec c0 rest base pid hnd

theorem c7_witness :
    (((3, ctxH) :: ctxs7rest).map Prod.fst).Nodup
    ∧ (multiGwScores ((3, ctxH) :: ctxs7rest) 4 7).2
        = specHorizonValue ((3, ctxH) :: ctxs7rest) 4 7
    ∧ (multiGwScores ((3, ctxH) :: ctxs7rest) 4 7).1 = specFixtureAdjust ctxH 7 4
    ∧ (multiGwScores ((3, ctxH) :: ctxs7rest) 4 7).2 = 949/100
    ∧ (multiGwScores ((3, ctxH) :: ctxs7rest) 4 7).1 = 231/50 := by
  have h := c7_horizon_objective (3, ctxH) ctxs7rest 4 7 (by decide)
  exact ⟨by decide, h.1, h.2, by with_unfolding_all decide, by with_unfolding_all decide⟩

/-- C8: the fixture context keyed by player id carries the away difficulty 5
under the key `fixture_difficulty`, yet the weakness score of the incumbent
is 0 — `_identify_weak_players` looks the context up by `team_id` and reads
the key `difficulty`, so the hard-fixture weight required by the claim (and
by the source's own comment) is never added. -/
theorem c8_weakness_fixture_bug :
    ctxFind (gameweekFixtureContext dbC8 7) 10 = some (mkFixtureEntry 201 false 5 1)
    ∧ entryGetI ((ctxFind (gameweekFixtureContext dbC8 7) 10).getD [])
        keyFixtureDifficulty 3 = 5
    ∧ weaknessScore infoC8 (gameweekFixtureContext dbC8 7) = 0
    ∧ identifyWeakPlayers [10] dataC8 (gameweekFixtureContext dbC8 7) = [10] := by
  refine ⟨by with_unfolding_all decide, by with_unfolding_all decide,
    by with_unfolding_all decide, by with_unfolding_all rfl⟩

theorem c1_witness :
    (dbW.players.map DBPlayer.player_id).Nodup
    ∧ optimizeTeam dbW 100 none none none 3 none 1 = .ok rW
    ∧ rW.players.length = 15
    ∧ rW.players.Nodup
    ∧ (rW.players.map (costOf (playerData dbW []))).sum ≤ 100
    ∧ (∀ pc ∈ formationConstraints,
        rW.players.countP (fun pid => posOf (playerData dbW []) pid == pc.1) = pc.2)
    ∧ (∀ t : Nat,
        rW.players.countP (fun pid => teamOf (playerData dbW []) pid == t) ≤ 3) := by
  have hnd : (dbW.players.map DBPlayer.player_id).Nodup := by decide
  have hok : optimizeTeam dbW 100 none none none 3 none 1 = Except.ok rW := by
    with_unfolding_all rfl
  obtain ⟨h1, h2, h3, h4, h5, _⟩ := c1_squad_invariants hnd hok
  exact ⟨hnd, hok, h1, h2, h3, h4, h5⟩

theorem c2_counterexample :
    optimizeTeam dbC2 100 none (some [99]) none 3 none 1 = .ok rW
    ∧ 99 ∉ rW.players := by
  exact ⟨by with_unfolding_all rfl, by decide⟩

theorem c2_witness :
    optimizeTeam dbW 100 none (some [1]) none 3 none 1 = .ok rW
    ∧ 1 ∈ rW.players := by
  have hok : optimizeTeam dbW 100 none (some [1]) none 3 none 1 = Except.ok rW := by
    with_unfolding_all rfl
  exact ⟨hok,
    (c2_preferred_amended dbW 100 none (some [1]) none none 3 1).1 rW hok 1
      (by decide) (by with_unfolding_all decide)⟩

theorem c3_counterexample :
    optimizeTeam dbC3 100 none none none 3 (some existing15) 0 = .ok rC3
    ∧ rC3.transfers_out = some [12]
    ∧ existing15.countP (fun pid => !(rC3.players.contains pid)) = 1 := by
  exact ⟨by with_unfolding_all rfl, by rfl, by decide⟩

theorem c3_witness :
    (0 : Int) < 1
    ∧ existing15 ≠ []
    ∧ optimizeTeam dbC3 100 none none none 3 (some existing15) 1 = .ok rC3
    ∧ ((existing15.countP (fun pid =>
        (poolIds (playerData dbC3 [])).contains pid
          && !(rC3.players.contains pid))) : Int) ≤ 1 := by
  have hok : optimizeTeam dbC3 100 none none none 3 (some existing15) 1
      = Except.ok rC3 := by
    with_unfolding_all rfl
  exact ⟨by norm_num, by decide, hok,
    c3_transfer_limit (by norm_num) (by decide) hok⟩

theorem c4_counterexample :
    optimizeTeam dbC4 100 none none none 3 none 1 = .error .infeasible
    ∧ playerData dbC4 [] ≠ [] := by
  exact ⟨by with_unfolding_all rfl, by with_unfolding_all decide⟩

theorem c5_counterexample :
    selectStartingXI squadC5 (some formation222) predsFn posFn none = .ok xiC5
    ∧ xiC5.length = 7 := by
  exact ⟨by with_unfolding_all rfl, by decide⟩

theorem c5_witness :
    squadC5.all (fun pid => allPositions.contains (posFn pid)) = true
    ∧ squadC5.Nodup
    ∧ selectStartingXI squadC5 (some formation442) predsFn posFn none = .ok xiC5b
    ∧ xiC5b.length = ((parseFormationNeeds (some formation442)).map Prod.snd).sum
    ∧ xiC5b.length = 11 := by
  have hv : squadC5.all (fun pid => allPositions.contains (posFn pid)) = true := by
    decide
  have hnd : squadC5.Nodup := by decide
  have hsel : selectStartingXI squadC5 (some formation442) predsFn posFn none
      = Except.ok xiC5b := by
    with_unfolding_all rfl
  have h := c5_lineup_amended squadC5 (some formation442) predsFn posFn none hv hnd
  exact ⟨hv, hnd, hsel, (h.1 xiC5b hsel).2.2.1, by decide⟩

theorem c6_counterexample :
    optimizeForGameweek dbC6 1 none 1 100 = .ok rC6
    ∧ rC6.captain_id ∉ rC6.starting_xi
    ∧ rC6.captain_id ∈ rC6.players
    ∧ rC6.captain_id ∈ rC6.bench := by
  exact ⟨by with_unfolding_all rfl, by decide, by decide, by decide⟩

theorem c6_witness :
    (dbC6.players.map DBPlayer.player_id).Nodup
    ∧ suggestCaptain dbC6 [1, 2] (some (gameweekFixtureContext dbC6 1)) = some rCapW
    ∧ rCapW.captain_id ∈ [1, 2]
    ∧ rCapW.vice_captain_id ∈ [1, 2]
    ∧ rCapW.captain_id ≠ rCapW.vice_captain_id := by
  have hnd : (dbC6.players.map DBPlayer.player_id).Nodup := by decide
  have hok : suggestCaptain dbC6 [1, 2] (some (gameweekFixtureContext dbC6 1))
      = some rCapW := by
    with_unfolding_all rfl
  obtain ⟨h1, h2, _, _, h5⟩ := c6_captain_amended hnd hok
  exact ⟨hnd, hok, h1, h2, h5 (by with_unfolding_all decide)⟩

theorem c9_witness :
    (100 : ℚ) ≤ 101
    ∧ optimizeTeam dbW 100 none none none 3 none 1 = .ok rW
    ∧ optimizeTeam dbW 101 none none none 3 none 1 = .ok rW101
    ∧ rW.objective_value ≤ rW101.objective_value := by
  have h1 : optimizeTeam dbW 100 none none none 3 none 1 = Except.ok rW := by
    with_unfolding_all rfl
  have h2 : optimizeTeam dbW 101 none none none 3 none 1 = Except.ok rW101 := by
    with_unfolding_all rfl
  have hb : (100 : ℚ) ≤ 101 := by norm_num
  exact ⟨hb, h1, h2, c9_budget_monotone hb h1 h2⟩
